import Mathlib

/-!
Verification development for the Evernote sync service
(`backend/app/services/evernote_sync.py`) and its data model
(`backend/app/models/evernote.py`).

The database session is embedded as an explicit record of table rows; every
`db.execute`/ORM mutation becomes a pure state transformation, and `commit`
boundaries are not modelled (no rollback semantics are needed by any theorem).
Python exceptions become `Except String` results that carry the state reached
at the point of the raise.  Wall-clock reads (`datetime.utcnow()`) are
modelled by a `now : Nat` parameter threaded into each entry point; datetimes
are epoch-millisecond naturals.  The two pure text functions that the service
takes from libraries — `hashlib.md5(...).hexdigest()` and the regex body of
`strip_enml` — are abstracted as fields of a `TextCtx` parameter, so every
theorem holds for the real digest and stripper.
-/

/-- Python `x or d` for an optional string (`None` and `""` are falsy). -/
def pyOrStr : Option String → String → String
  | none, d => d
  | some s, d => if s = "" then d else s

/-- Python `x or d` for an optional integer (`None` and `0` are falsy). -/
def pyOrNat : Option Nat → Nat → Nat
  | none, d => d
  | some n, d => if n = 0 then d else n

/-- `en_timestamp_to_datetime`: `if not ts: return None`, else the instant
(epoch-ms value kept as the datetime's representation). -/
def en_timestamp_to_datetime : Option Nat → Option Nat
  | none => none
  | some t => if t = 0 then none else some t

/-- `_map_privilege`: map Evernote SharedNotebookPrivilegeLevel to a string;
`mapping.get(priv, "READ")` over `{1: READ, 2: MODIFY, 3: FULL}`. -/
def _map_privilege : Option Nat → String
  | some 1 => "READ"
  | some 2 => "MODIFY"
  | some 3 => "FULL"
  | _ => "READ"

/-- `NoteAttributes` of a fetched note (`en_note.attributes`). -/
structure RemoteAttrs where
  sourceURL : Option String
  author : Option String
deriving DecidableEq

/-- A full note returned by `note_store.getNote(guid, True, False, False, False)`. -/
structure RemoteNote where
  title : Option String
  content : Option String
  contentLength : Option Nat
  created : Option Nat
  updated : Option Nat
  tagGuids : Option (List String)
  attributes : Option RemoteAttrs
deriving DecidableEq

/-- One entry of `notes_metadata.notes`; the sync loop only reads `meta.guid`. -/
structure NoteMeta where
  guid : String
deriving DecidableEq

/-- A tag returned by `note_store.getTag(tguid)`. -/
structure RemoteTag where
  name : String
deriving DecidableEq

/-- A notebook from `note_store.listNotebooks()`. -/
structure RemoteNotebook where
  guid : String
  name : String
  stack : Option String
  updateSequenceNum : Option Nat
deriving DecidableEq

/-- A linked notebook from `note_store.listLinkedNotebooks()`. -/
structure RemoteLinkedNotebook where
  username : Option String
  shareName : Option String
deriving DecidableEq

/-- The record returned by `shared_note_store.getSharedNotebookByAuth()`. -/
structure SharedNotebook where
  notebookGuid : String
  id : Option Nat
  privilege : Option Nat
deriving DecidableEq

/-- A note store handle: the remote listing per notebook GUID, plus the two
fallible per-object calls.  An `Except.error` models the Evernote client
raising. -/
structure NoteStore where
  listing : String → List NoteMeta
  getNote : String → Except String RemoteNote
  getTag : String → Except String RemoteTag

/-- The page object returned by `findNotesMetadata(note_filter, offset, batch, spec)`. -/
structure NotesMetadataPage where
  notes : List NoteMeta
  totalNotes : Nat
deriving DecidableEq

/-- `note_store.findNotesMetadata` over the store's listing for one notebook. -/
def findNotesMetadata (s : NoteStore) (notebookGuid : String) (offset batch : Nat) :
    NotesMetadataPage :=
  { notes := ((s.listing notebookGuid).drop offset).take batch
    totalNotes := (s.listing notebookGuid).length }

/-- The two pure library text functions used by the service:
`md5Hex` is `hashlib.md5(·.encode()).hexdigest()` and `stripBody` is the
regex/unescape chain of `strip_enml` after its emptiness guard. -/
structure TextCtx where
  md5Hex : String → String
  stripBody : String → String

/-- `strip_enml`: `if not enml_content: return ""`, else the regex chain. -/
def strip_enml (ctx : TextCtx) : Option String → String
  | none => ""
  | some s => if s = "" then "" else ctx.stripBody s

/-- One linked-notebook entry of the remote account: the
`listLinkedNotebooks()` element, the `getSharedNotebookByAuth()` record of its
shared store, and the shared store itself (`client.getSharedNoteStore(lnb)`). -/
structure LinkedEntry where
  lnb : RemoteLinkedNotebook
  shared : SharedNotebook
  store : NoteStore

/-- The authenticated remote surface one user's sync pass talks to. -/
structure EvernoteEnv where
  store : NoteStore
  ownNotebooks : List RemoteNotebook
  linked : List LinkedEntry

/-- `users` row (columns the sync service reads or writes). -/
structure UserRow where
  id : Nat
  name : String
  evernote_token : Option String
  token_expires_at : Option Nat
  last_sync_at : Option Nat
deriving DecidableEq

/-- `notebooks` row. -/
structure NotebookRow where
  id : Nat
  user_id : Nat
  notebook_guid : String
  name : String
  stack : Option String
  is_shared : Bool
  shared_from : Option String
  shared_notebook_guid : Option String
  privilege : String
  usn : Nat
  sync_enabled : Bool
  last_sync_at : Option Nat
  created_at : Nat
  updated_at : Nat
deriving DecidableEq

/-- `notes` row (the AI-enrichment columns, untouched by sync, are omitted). -/
structure NoteRow where
  id : Nat
  evernote_guid : String
  notebook_id : Option Nat
  source_user_id : Nat
  title : String
  plain_text : String
  enml_content : Option String
  content_hash : String
  content_length : Nat
  source_url : Option String
  author : Option String
  en_created : Option Nat
  en_updated : Option Nat
  created_at : Nat
  updated_at : Nat
deriving DecidableEq

/-- `tags` row. -/
structure TagRow where
  id : Nat
  evernote_guid : String
  name : String
deriving DecidableEq

/-- `note_access` row. -/
structure NoteAccessRow where
  note_id : Nat
  user_id : Nat
  access_type : String
  synced_at : Nat
deriving DecidableEq

/-- `sync_log` row. -/
structure SyncLogRow where
  id : Nat
  user_id : Nat
  sync_type : String
  status : String
  notes_synced : Nat
  notebooks_synced : Nat
  error_message : Option String
  started_at : Nat
  finished_at : Option Nat
deriving DecidableEq

/-- The database state seen by one sync pass: table contents plus the
sequences feeding the integer primary keys. -/
structure DB where
  users : List UserRow
  notebooks : List NotebookRow
  notes : List NoteRow
  tags : List TagRow
  noteTags : List (Nat × Nat)
  noteAccess : List NoteAccessRow
  syncLogs : List SyncLogRow
  nextNotebookId : Nat
  nextNoteId : Nat
  nextTagId : Nat
  nextSyncLogId : Nat
deriving DecidableEq

/-- `select(Note).where(Note.evernote_guid == guid)` / `scalar_one_or_none()`
(the unique-guid constraint makes the first match the only match). -/
def findByGuid (st : DB) (g : String) : Option NoteRow :=
  st.notes.find? (fun r => r.evernote_guid == g)

/-- Whether a `note_access` row for the (note, user) pair exists. -/
def hasAccess (st : DB) (noteId userId : Nat) : Bool :=
  st.noteAccess.any (fun a => a.note_id == noteId && a.user_id == userId)

/-- Number of `notes` rows carrying a given remote GUID. -/
def countGuid (st : DB) (g : String) : Nat :=
  st.notes.countP (fun r => r.evernote_guid == g)

/-- Schema well-formedness used as a precondition: primary keys of `notes`
below the id sequence and distinct, and the `evernote_guid` unique
constraint. -/
def WFNotes (st : DB) : Prop :=
  (st.notes.map (fun r => r.id)).Nodup ∧
  (∀ r ∈ st.notes, r.id < st.nextNoteId) ∧
  (st.notes.map (fun r => r.evernote_guid)).Nodup

instance : DecidablePred WFNotes := fun st => by
  unfold WFNotes; infer_instance

/-- `sync_log` primary keys below the id sequence (the serial column). -/
def WFLogs (st : DB) : Prop :=
  ∀ l ∈ st.syncLogs, l.id < st.nextSyncLogId

instance : DecidablePred WFLogs := fun st => by
  unfold WFLogs; infer_instance

/-- Lookup of a sync-log row by primary key. -/
def getSyncLog (st : DB) (logId : Nat) : Option SyncLogRow :=
  st.syncLogs.find? (fun l => l.id == logId)

/-- `User.is_evernote_connected`: token truthy, expiry present, expiry in the
future. -/
def is_evernote_connected (u : UserRow) (now : Nat) : Bool :=
  (match u.evernote_token with
   | none => false
   | some t => !(t == "")) &&
  (match u.token_expires_at with
   | none => false
   | some t => now < t)

/-- The conflict-free insert of `_ensure_note_access` on the `note_access`
list: `ON CONFLICT (note_id, user_id) DO NOTHING`. -/
def ensureList (l : List NoteAccessRow) (noteId userId now : Nat) : List NoteAccessRow :=
  if l.any (fun a => a.note_id == noteId && a.user_id == userId) then l
  else l ++ [{ note_id := noteId, user_id := userId, access_type := "SYNC", synced_at := now }]

/-- `_ensure_note_access(db, note_id, user_id)`. -/
def _ensure_note_access (st : DB) (noteId userId now : Nat) : DB :=
  { st with noteAccess := ensureList st.noteAccess noteId userId now }

/-- The `note_tags` insert with `on_conflict_do_nothing()` (primary key
(note_id, tag_id)). -/
def linkNoteTag (st : DB) (noteId tagId : Nat) : DB :=
  if st.noteTags.any (fun p => p.1 == noteId && p.2 == tagId) then st
  else { st with noteTags := st.noteTags ++ [(noteId, tagId)] }

/-- `_sync_note_tags(db, note_id, note_store, tag_guids)`: for each tag GUID,
resolve or create the tag (a `getTag` failure skips that tag), then link. -/
def _sync_note_tags (store : NoteStore) (st : DB) (noteId : Nat)
    (tagGuids : Option (List String)) : DB :=
  match tagGuids with
  | none => st
  | some gs =>
    gs.foldl (fun st tguid =>
      match st.tags.find? (fun t => t.evernote_guid == tguid) with
      | some tag => linkNoteTag st noteId tag.id
      | none =>
        match store.getTag tguid with
        | Except.error _ => st
        | Except.ok rt =>
          let tag : TagRow := { id := st.nextTagId, evernote_guid := tguid, name := rt.name }
          let st1 := { st with tags := st.tags ++ [tag], nextTagId := st.nextTagId + 1 }
          linkNoteTag st1 noteId tag.id) st

/-- The field overwrite of the "content updated — refresh" branch of
`_sync_single_note` (lines mutating `existing`). -/
def updatedNoteRow (ctx : TextCtx) (now : Nat) (ex : NoteRow) (n : RemoteNote) : NoteRow :=
  { ex with
    title := pyOrStr n.title ex.title
    enml_content := n.content
    plain_text := strip_enml ctx n.content
    content_hash := ctx.md5Hex (pyOrStr n.content "")
    content_length := pyOrNat n.contentLength 0
    en_updated := en_timestamp_to_datetime n.updated
    updated_at := now }

/-- The freshly inserted `Note(...)` of the "new note" branch of
`_sync_single_note`. -/
def newNoteRow (ctx : TextCtx) (userId notebookId noteId now : Nat)
    (guid : String) (n : RemoteNote) : NoteRow :=
  { id := noteId
    evernote_guid := guid
    notebook_id := some notebookId
    source_user_id := userId
    title := pyOrStr n.title "Untitled"
    plain_text := strip_enml ctx n.content
    enml_content := n.content
    content_hash := ctx.md5Hex (pyOrStr n.content "")
    content_length := pyOrNat n.contentLength 0
    source_url := n.attributes.bind (fun a => a.sourceURL)
    author := n.attributes.bind (fun a => a.author)
    en_created := en_timestamp_to_datetime n.created
    en_updated := en_timestamp_to_datetime n.updated
    created_at := now
    updated_at := now }

/-- `_sync_single_note(db, user, notebook, note_store, meta)`.  Returns the
session state together with `True` for new/updated, `False` for unchanged, or
the propagating exception.  Dedup: an existing row for the GUID first gets a
`NoteAccess`, then the fetched content's hash decides skip vs update; an
absent row is fetched, inserted and granted. -/
def _sync_single_note (ctx : TextCtx) (store : NoteStore)
    (userId notebookId now : Nat) (st : DB) (m : NoteMeta) :
    DB × Except String Bool :=
  match findByGuid st m.guid with
  | some existing =>
    let st1 := _ensure_note_access st existing.id userId now
    match store.getNote m.guid with
    | Except.error e => (st1, Except.error e)
    | Except.ok n =>
      let newHash := ctx.md5Hex (pyOrStr n.content "")
      if existing.content_hash = newHash then
        (st1, Except.ok false)
      else
        let upd := updatedNoteRow ctx now existing n
        let st2 := { st1 with
          notes := st1.notes.map (fun r => if r.id = existing.id then upd else r) }
        let st3 := _sync_note_tags store st2 existing.id n.tagGuids
        (st3, Except.ok true)
  | none =>
    match store.getNote m.guid with
    | Except.error e => (st, Except.error e)
    | Except.ok n =>
      let note := newNoteRow ctx userId notebookId st.nextNoteId now m.guid n
      let st1 := { st with notes := st.notes ++ [note], nextNoteId := st.nextNoteId + 1 }
      let st2 := _ensure_note_access st1 note.id userId now
      let st3 := _sync_note_tags store st2 note.id n.tagGuids
      (st3, Except.ok true)

/-- The body of the per-page `for meta in notes_metadata.notes` loop of
`sync_notes_in_notebook`, over a list of metadata entries: each note is
synced in order, `total_synced` incremented on `True`, and an exception
propagates immediately (there is no per-note handler in the source). -/
def syncMetas (ctx : TextCtx) (store : NoteStore) (userId notebookId now : Nat)
    (st : DB) (metas : List NoteMeta) (acc : Nat) : DB × Except String Nat :=
  match metas with
  | [] => (st, Except.ok acc)
  | m :: rest =>
    match _sync_single_note ctx store userId notebookId now st m with
    | (st1, Except.error e) => (st1, Except.error e)
    | (st1, Except.ok b) =>
      syncMetas ctx store userId notebookId now st1 rest (if b then acc + 1 else acc)

/-- The `while True` pagination loop of `sync_notes_in_notebook`
(`batch_size = 50`): fetch a metadata page, break on an empty page, process
it, advance the offset, break once `offset >= totalNotes`. -/
def findNotesMetadataLoop (ctx : TextCtx) (store : NoteStore)
    (userId notebookId now : Nat) (filterGuid : String)
    (st : DB) (offset acc : Nat) : DB × Except String Nat :=
  if (findNotesMetadata store filterGuid offset 50).notes.isEmpty then
    (st, Except.ok acc)
  else
    match syncMetas ctx store userId notebookId now st
        (findNotesMetadata store filterGuid offset 50).notes acc with
    | (st1, Except.error e) => (st1, Except.error e)
    | (st1, Except.ok acc1) =>
      if h : (findNotesMetadata store filterGuid offset 50).totalNotes ≤ offset + 50 then
        (st1, Except.ok acc1)
      else findNotesMetadataLoop ctx store userId notebookId now filterGuid st1 (offset + 50) acc1
termination_by (store.listing filterGuid).length - offset
decreasing_by
  simp_wf
  simp only [findNotesMetadata] at h
  omega

/-- A reconciled notebook handle flowing into note sync: the persisted row
plus the transient `_shared_note_store` / `_shared_nb_guid` attributes that
`sync_linked_notebooks` attaches ad hoc. -/
structure NotebookHandle where
  row : NotebookRow
  sharedStore : Option (NoteStore × String)

/-- Note-store routing of `sync_notes_in_notebook` when called with
`note_store=None`: a shared notebook with an attached `_shared_note_store`
uses it, otherwise the user's own store. -/
def noteStoreFor (defaultStore : NoteStore) (h : NotebookHandle) : NoteStore :=
  if h.row.is_shared then
    match h.sharedStore with
    | some p => p.1
    | none => defaultStore
  else defaultStore

/-- `NoteFilter.notebookGuid` choice: `_shared_nb_guid` when the notebook is
shared and carries one, else the row's own GUID. -/
def noteFilterGuid (h : NotebookHandle) : String :=
  if h.row.is_shared then
    match h.sharedStore with
    | some p => p.2
    | none => h.row.notebook_guid
  else h.row.notebook_guid

/-- The `notebook.last_sync_at = datetime.utcnow()` stamp at the end of
`sync_notes_in_notebook`, keyed by the notebook row's primary key. -/
def stampLastSync (st : DB) (nbId now : Nat) : DB :=
  let stamped := st.notebooks.map
    (fun nb => if nb.id = nbId then { nb with last_sync_at := some now } else nb)
  { st with notebooks := stamped }

/-- `sync_notes_in_notebook(db, user, notebook, note_store=None, full_sync)`:
skip a sync-disabled notebook, otherwise page through the notes, then stamp
the notebook's `last_sync_at`.  (The `full_sync` flag is unused in the
source.) -/
def sync_notes_in_notebook (ctx : TextCtx) (defaultStore : NoteStore)
    (userId : Nat) (h : NotebookHandle) (now : Nat) (st : DB) :
    DB × Except String Nat :=
  if !h.row.sync_enabled then
    (st, Except.ok 0)
  else
    let store := noteStoreFor defaultStore h
    match findNotesMetadataLoop ctx store userId h.row.id now (noteFilterGuid h) st 0 0 with
    | (st1, Except.error e) => (st1, Except.error e)
    | (st1, Except.ok total) => (stampLastSync st1 h.row.id now, Except.ok total)

/-- The own-notebook upsert of `sync_own_notebooks` fused with the follow-up
`select ... scalar_one()`: `ON CONFLICT (user_id, notebook_guid) DO UPDATE
SET name, stack, usn, updated_at`. -/
def notebookUpsertOwn (st : DB) (userId : Nat) (nb : RemoteNotebook) (now : Nat) :
    DB × NotebookRow :=
  match st.notebooks.find? (fun r => r.user_id == userId && r.notebook_guid == nb.guid) with
  | some row =>
    let upd := { row with
      name := nb.name
      stack := nb.stack
      usn := pyOrNat nb.updateSequenceNum 0
      updated_at := now }
    let replaced := st.notebooks.map
      (fun r => if r.user_id = userId ∧ r.notebook_guid = nb.guid then upd else r)
    ({ st with notebooks := replaced }, upd)
  | none =>
    let row : NotebookRow := {
      id := st.nextNotebookId
      user_id := userId
      notebook_guid := nb.guid
      name := nb.name
      stack := nb.stack
      is_shared := false
      shared_from := none
      shared_notebook_guid := none
      privilege := "READ"
      usn := pyOrNat nb.updateSequenceNum 0
      sync_enabled := true
      last_sync_at := none
      created_at := now
      updated_at := now }
    ({ st with notebooks := st.notebooks ++ [row], nextNotebookId := st.nextNotebookId + 1 },
     row)

/-- The linked-notebook upsert of `sync_linked_notebooks` fused with the
follow-up select: `ON CONFLICT (user_id, notebook_guid) DO UPDATE SET name,
shared_from, updated_at`. -/
def notebookUpsertLinked (st : DB) (userId : Nat) (lnb : RemoteLinkedNotebook)
    (snb : SharedNotebook) (now : Nat) : DB × NotebookRow :=
  let sharedFrom := pyOrStr lnb.username (pyOrStr lnb.shareName "Unknown")
  let nbName := pyOrStr lnb.shareName "Shared Notebook"
  match st.notebooks.find? (fun r => r.user_id == userId && r.notebook_guid == snb.notebookGuid) with
  | some row =>
    let upd := { row with
      name := nbName
      shared_from := some sharedFrom
      updated_at := now }
    let replaced := st.notebooks.map
      (fun r => if r.user_id = userId ∧ r.notebook_guid = snb.notebookGuid then upd else r)
    ({ st with notebooks := replaced }, upd)
  | none =>
    let row : NotebookRow := {
      id := st.nextNotebookId
      user_id := userId
      notebook_guid := snb.notebookGuid
      name := nbName
      stack := none
      is_shared := true
      shared_from := some sharedFrom
      shared_notebook_guid :=
        (match snb.id with
         | some i => if i = 0 then none else some (toString i)
         | none => none)
      privilege := _map_privilege snb.privilege
      usn := 0
      sync_enabled := true
      last_sync_at := none
      created_at := now
      updated_at := now }
    ({ st with notebooks := st.notebooks ++ [row], nextNotebookId := st.nextNotebookId + 1 },
     row)

/-- `sync_own_notebooks(db, user)`: upsert every remote own notebook and
collect the reconciled rows (no transient shared store attached). -/
def sync_own_notebooks (env : EvernoteEnv) (user : UserRow) (now : Nat) (st : DB) :
    DB × List NotebookHandle :=
  env.ownNotebooks.foldl
    (fun acc nb =>
      let res := notebookUpsertOwn acc.1 user.id nb now
      (res.1, acc.2 ++ [{ row := res.2, sharedStore := none }]))
    (st, [])

/-- `sync_linked_notebooks(db, user)`: upsert every linked notebook and
collect the rows, each annotated with its `_shared_note_store` and
`_shared_nb_guid`. -/
def sync_linked_notebooks (env : EvernoteEnv) (user : UserRow) (now : Nat) (st : DB) :
    DB × List NotebookHandle :=
  env.linked.foldl
    (fun acc e =>
      let res := notebookUpsertLinked acc.1 user.id e.lnb e.shared now
      (res.1, acc.2 ++ [{ row := res.2, sharedStore := some (e.store, e.shared.notebookGuid) }]))
    (st, [])

/-- The `for notebook in all_notebooks` accumulation of `full_sync_user`
(step 3): `total_notes += count`, an exception propagating. -/
def syncAllNotebooks (ctx : TextCtx) (defaultStore : NoteStore) (userId : Nat)
    (hs : List NotebookHandle) (now : Nat) (st : DB) (acc : Nat) :
    DB × Except String Nat :=
  match hs with
  | [] => (st, Except.ok acc)
  | h :: rest =>
    match sync_notes_in_notebook ctx defaultStore userId h now st with
    | (st1, Except.error e) => (st1, Except.error e)
    | (st1, Except.ok c) => syncAllNotebooks ctx defaultStore userId rest now st1 (acc + c)

/-- Observer: the per-notebook synced-note counts produced, in order, by the
note phase (empty tail once a notebook errors). -/
def notebookNoteCounts (ctx : TextCtx) (defaultStore : NoteStore) (userId : Nat)
    (hs : List NotebookHandle) (now : Nat) (st : DB) : List Nat :=
  match hs with
  | [] => []
  | h :: rest =>
    match sync_notes_in_notebook ctx defaultStore userId h now st with
    | (_, Except.error _) => []
    | (st1, Except.ok c) => c :: notebookNoteCounts ctx defaultStore userId rest now st1

/-- The `try` block of `full_sync_user`: own notebooks, linked notebooks,
then notes per notebook; yields (own count, shared count, total notes). -/
def evernoteSyncBody (ctx : TextCtx) (env : EvernoteEnv) (user : UserRow)
    (now : Nat) (st : DB) : DB × Except String (Nat × Nat × Nat) :=
  let resOwn := sync_own_notebooks env user now st
  let resLinked := sync_linked_notebooks env user now resOwn.1
  let allNotebooks := resOwn.2 ++ resLinked.2
  match syncAllNotebooks ctx env.store user.id allNotebooks now resLinked.1 0 with
  | (st3, Except.error e) => (st3, Except.error e)
  | (st3, Except.ok total) => (st3, Except.ok (resOwn.2.length, resLinked.2.length, total))

/-- The summary dict returned by `full_sync_user`. -/
structure SyncSummary where
  notebooks : Nat
  own : Nat
  shared : Nat
  notes : Nat
deriving DecidableEq

/-- The STARTED `SyncLog` row `full_sync_user` adds on entry. -/
def startedSyncLog (userId logId now : Nat) : SyncLogRow :=
  { id := logId
    user_id := userId
    sync_type := "FULL"
    status := "STARTED"
    notes_synced := 0
    notebooks_synced := 0
    error_message := none
    started_at := now
    finished_at := none }

/-- The state right after `db.add(log); await db.commit()` on entry of
`full_sync_user`. -/
def startedState (st : DB) (userId now : Nat) : DB :=
  { st with syncLogs := st.syncLogs ++ [startedSyncLog userId st.nextSyncLogId now]
            nextSyncLogId := st.nextSyncLogId + 1 }

/-- `full_sync_user(db, user)`: raise when the user's Evernote auth is not
valid; otherwise write a STARTED sync-log row, run the orchestrated pass, and
terminate the log row as SUCCESS (with counts and the user's `last_sync_at`)
or FAILED (with `str(e)` and finish time, re-raising). -/
def full_sync_user (ctx : TextCtx) (env : EvernoteEnv) (user : UserRow)
    (now : Nat) (st : DB) : DB × Except String SyncSummary :=
  if !is_evernote_connected user now then
    (st, Except.error ("User " ++ user.name ++ " has no valid Evernote token"))
  else
    let logId := st.nextSyncLogId
    let st0 := startedState st user.id now
    match evernoteSyncBody ctx env user now st0 with
    | (st1, Except.error e) =>
      let failedLogs := st1.syncLogs.map
        (fun l => if l.id = logId then
          { l with status := "FAILED", error_message := some e, finished_at := some now }
        else l)
      ({ st1 with syncLogs := failedLogs }, Except.error e)
    | (st1, Except.ok (ownN, sharedN, total)) =>
      let stampedUsers := st1.users.map
        (fun u => if u.id = user.id then { u with last_sync_at := some now } else u)
      let st2 := { st1 with users := stampedUsers }
      let successLogs := st2.syncLogs.map
        (fun l => if l.id = logId then
          { l with status := "SUCCESS", notebooks_synced := ownN + sharedN,
                   notes_synced := total, finished_at := some now }
        else l)
      let st3 := { st2 with syncLogs := successLogs }
      (st3, Except.ok { notebooks := ownN + sharedN, own := ownN, shared := sharedN, notes := total })

/-! ### Concrete fixtures used by witnesses and counterexamples -/

/-- A concrete text context for witness evaluation (any deterministic
functions qualify; theorems are proved for all of them). -/
def idCtx : TextCtx := { md5Hex := fun s => s, stripBody := fun s => s }

/-- The empty database with all id sequences at 1. -/
def emptyDB : DB :=
  { users := [], notebooks := [], notes := [], tags := [], noteTags := [],
    noteAccess := [], syncLogs := [], nextNotebookId := 1, nextNoteId := 1,
    nextTagId := 1, nextSyncLogId := 1 }

/-- A note store with nothing in it. -/
def emptyStore : NoteStore :=
  { listing := fun _ => [], getNote := fun _ => Except.error "missing",
    getTag := fun _ => Except.error "missing" }

/-! ### Frame lemmas for the tag phase -/

theorem linkNoteTag_shape (st : DB) (noteId tagId : Nat) :
    ∃ ntg, linkNoteTag st noteId tagId = { st with noteTags := ntg } := by
  unfold linkNoteTag
  split
  · exact ⟨st.noteTags, rfl⟩
  · exact ⟨st.noteTags ++ [(noteId, tagId)], rfl⟩

theorem sync_note_tags_step_shape (store : NoteStore) (st : DB) (noteId : Nat)
    (tguid : String) :
    ∃ tg ntg k,
      (match st.tags.find? (fun t => t.evernote_guid == tguid) with
       | some tag => linkNoteTag st noteId tag.id
       | none =>
         match store.getTag tguid with
         | Except.error _ => st
         | Except.ok rt =>
           let tag : TagRow := { id := st.nextTagId, evernote_guid := tguid, name := rt.name }
           let st1 := { st with tags := st.tags ++ [tag], nextTagId := st.nextTagId + 1 }
           linkNoteTag st1 noteId tag.id) =
      { st with tags := tg, noteTags := ntg, nextTagId := k } := by
  cases hfind : st.tags.find? (fun t => t.evernote_guid == tguid) with
  | some tag =>
    obtain ⟨ntg, hl⟩ := linkNoteTag_shape st noteId tag.id
    exact ⟨st.tags, ntg, st.nextTagId, by dsimp only; rw [hl]⟩
  | none =>
    cases hget : store.getTag tguid with
    | error e => exact ⟨st.tags, st.noteTags, st.nextTagId, rfl⟩
    | ok rt =>
      obtain ⟨ntg, hl⟩ :=
        linkNoteTag_shape
          { st with tags := st.tags ++ [{ id := st.nextTagId, evernote_guid := tguid, name := rt.name }],
                    nextTagId := st.nextTagId + 1 } noteId st.nextTagId
      refine ⟨st.tags ++ [{ id := st.nextTagId, evernote_guid := tguid, name := rt.name }],
              ntg, st.nextTagId + 1, ?_⟩
      dsimp only
      simpa using hl

theorem sync_note_tags_shape (store : NoteStore) (st : DB) (noteId : Nat)
    (tagGuids : Option (List String)) :
    ∃ tg ntg k, _sync_note_tags store st noteId tagGuids =
      { st with tags := tg, noteTags := ntg, nextTagId := k } := by
  cases tagGuids with
  | none => exact ⟨st.tags, st.noteTags, st.nextTagId, rfl⟩
  | some gs =>
    unfold _sync_note_tags
    induction gs generalizing st with
    | nil => exact ⟨st.tags, st.noteTags, st.nextTagId, rfl⟩
    | cons g rest ih =>
      simp only [List.foldl_cons]
      obtain ⟨tg, ntg, k, hstep⟩ := sync_note_tags_step_shape store st noteId g
      rw [hstep]
      obtain ⟨tg2, ntg2, k2, hrest⟩ := ih { st with tags := tg, noteTags := ntg, nextTagId := k }
      exact ⟨tg2, ntg2, k2, hrest⟩

/-! ### Access-list lemmas -/

theorem ensureList_subset (l : List NoteAccessRow) (nid uid now : Nat) :
    l ⊆ ensureList l nid uid now := by
  unfold ensureList
  split
  · exact fun a ha => ha
  · exact List.subset_append_left l _

theorem ensureList_present (l : List NoteAccessRow) (nid uid now : Nat)
    (h : l.any (fun a => a.note_id == nid && a.user_id == uid) = true) :
    ensureList l nid uid now = l := by
  unfold ensureList
  rw [if_pos h]

theorem ensureList_grants (l : List NoteAccessRow) (nid uid now : Nat) :
    (ensureList l nid uid now).any (fun a => a.note_id == nid && a.user_id == uid) = true := by
  unfold ensureList
  split
  · assumption
  · rw [List.any_eq_true]
    refine ⟨{ note_id := nid, user_id := uid, access_type := "SYNC", synced_at := now }, ?_, ?_⟩
    · exact List.mem_append_right l (List.mem_singleton.mpr rfl)
    · simp

theorem any_mono_of_subset {α : Type} {p : α → Bool} {l l' : List α}
    (hsub : l ⊆ l') (h : l.any p = true) : l'.any p = true := by
  rw [List.any_eq_true] at h ⊢
  obtain ⟨x, hx, hp⟩ := h
  exact ⟨x, hsub hx, hp⟩

/-! ### The pagination loop is the in-order fold over the full listing -/

theorem syncMetas_append (ctx : TextCtx) (s : NoteStore) (u nbid now : Nat)
    (xs ys : List NoteMeta) :
    ∀ (st : DB) (acc : Nat),
      syncMetas ctx s u nbid now st (xs ++ ys) acc =
        (match syncMetas ctx s u nbid now st xs acc with
         | (st1, Except.ok acc1) => syncMetas ctx s u nbid now st1 ys acc1
         | (st1, Except.error e) => (st1, Except.error e)) := by
  induction xs with
  | nil => intro st acc; rfl
  | cons m rest ih =>
    intro st acc
    have hL : syncMetas ctx s u nbid now st ((m :: rest) ++ ys) acc =
        (match _sync_single_note ctx s u nbid now st m with
         | (st1, Except.error e) => (st1, Except.error e)
         | (st1, Except.ok b) =>
           syncMetas ctx s u nbid now st1 (rest ++ ys) (if b then acc + 1 else acc)) := rfl
    have hR : syncMetas ctx s u nbid now st (m :: rest) acc =
        (match _sync_single_note ctx s u nbid now st m with
         | (st1, Except.error e) => (st1, Except.error e)
         | (st1, Except.ok b) =>
           syncMetas ctx s u nbid now st1 rest (if b then acc + 1 else acc)) := rfl
    rw [hL, hR]
    cases hm : _sync_single_note ctx s u nbid now st m with
    | mk st1 r =>
      cases r with
      | error e => rfl
      | ok b =>
        dsimp only
        exact ih st1 (if b then acc + 1 else acc)

theorem findNotesMetadataLoop_eq (ctx : TextCtx) (store : NoteStore)
    (uid nbid now : Nat) (fg : String) :
    ∀ (offset : Nat) (st : DB) (acc : Nat),
      findNotesMetadataLoop ctx store uid nbid now fg st offset acc =
        syncMetas ctx store uid nbid now st ((store.listing fg).drop offset) acc := by
  have main : ∀ (n offset : Nat), (store.listing fg).length - offset ≤ n →
      ∀ (st : DB) (acc : Nat),
        findNotesMetadataLoop ctx store uid nbid now fg st offset acc =
          syncMetas ctx store uid nbid now st ((store.listing fg).drop offset) acc := by
    intro n
    induction n with
    | zero =>
      intro offset hle st acc
      have hnil : (store.listing fg).drop offset = [] :=
        List.drop_eq_nil_of_le (by omega)
      unfold findNotesMetadataLoop
      simp only [findNotesMetadata]
      rw [hnil]
      rfl
    | succ n ih =>
      intro offset hle st acc
      unfold findNotesMetadataLoop
      simp only [findNotesMetadata]
      by_cases hemp : (((store.listing fg).drop offset).take 50).isEmpty = true
      · have hnil : (store.listing fg).drop offset = [] := by
          rcases List.take_eq_nil_iff.mp (List.isEmpty_iff.mp hemp) with hk | hk
          · omega
          · exact hk
        rw [if_pos hemp, hnil]
        rfl
      · have hsplit : (store.listing fg).drop offset =
            ((store.listing fg).drop offset).take 50 ++ (store.listing fg).drop (offset + 50) := by
          rw [← List.drop_drop]
          exact (List.take_append_drop 50 _).symm
        rw [if_neg hemp]
        conv_rhs => rw [hsplit]
        rw [syncMetas_append]
        cases hrun : syncMetas ctx store uid nbid now st
            (((store.listing fg).drop offset).take 50) acc with
        | mk st1 r =>
          cases r with
          | error e => rfl
          | ok acc1 =>
            dsimp only
            by_cases hlen : (store.listing fg).length ≤ offset + 50
            · rw [dif_pos hlen, List.drop_eq_nil_of_le hlen]
              rfl
            · rw [dif_neg hlen]
              exact ih (offset + 50) (by omega) st1 acc1
  intro offset st acc
  exact main ((store.listing fg).length - offset) offset (le_refl _) st acc

/-- Characterization of `sync_notes_in_notebook` on an enabled notebook: the
paged loop is the in-order fold over the complete listing, followed by the
`last_sync_at` stamp. -/
theorem sync_notes_in_notebook_enabled (ctx : TextCtx) (d : NoteStore) (uid : Nat)
    (h : NotebookHandle) (now : Nat) (st : DB) (hen : h.row.sync_enabled = true) :
    sync_notes_in_notebook ctx d uid h now st =
      (match syncMetas ctx (noteStoreFor d h) uid h.row.id now st
          ((noteStoreFor d h).listing (noteFilterGuid h)) 0 with
       | (st1, Except.error e) => (st1, Except.error e)
       | (st1, Except.ok total) => (stampLastSync st1 h.row.id now, Except.ok total)) := by
  unfold sync_notes_in_notebook
  rw [hen]
  dsimp only
  rw [findNotesMetadataLoop_eq, List.drop_zero]
  rfl

/-! ### C8 -/

/-- C8: `_map_privilege` maps code 1 to READ, 2 to MODIFY, 3 to FULL, and any
other input — including an absent privilege — to READ, so its result is
always one of READ/MODIFY/FULL. -/
theorem map_privilege_spec :
    _map_privilege (some 1) = "READ" ∧
    _map_privilege (some 2) = "MODIFY" ∧
    _map_privilege (some 3) = "FULL" ∧
    _map_privilege none = "READ" ∧
    (∀ p : Option Nat, p ≠ some 1 → p ≠ some 2 → p ≠ some 3 → _map_privilege p = "READ") ∧
    (∀ p : Option Nat,
      _map_privilege p = "READ" ∨ _map_privilege p = "MODIFY" ∨ _map_privilege p = "FULL") := by
  refine ⟨rfl, rfl, rfl, rfl, ?_, ?_⟩
  · intro p h1 h2 h3
    match p with
    | none => rfl
    | some 0 => rfl
    | some 1 => exact absurd rfl h1
    | some 2 => exact absurd rfl h2
    | some 3 => exact absurd rfl h3
    | some (n + 4) => rfl
  · intro p
    match p with
    | none => exact Or.inl rfl
    | some 0 => exact Or.inl rfl
    | some 1 => exact Or.inl rfl
    | some 2 => exact Or.inr (Or.inl rfl)
    | some 3 => exact Or.inr (Or.inr rfl)
    | some (n + 4) => exact Or.inl rfl

theorem map_privilege_spec_witness :
    _map_privilege (some 7) = "READ" ∧ _map_privilege (some 0) = "READ" := by
  have h := map_privilege_spec
  exact ⟨h.2.2.2.2.1 (some 7) (by decide) (by decide) (by decide),
         h.2.2.2.2.1 (some 0) (by decide) (by decide) (by decide)⟩

/-! ### C9 -/

/-- C9: a notebook whose local `sync_enabled` flag is false is skipped
entirely: the note sync returns a zero count and the state is returned
untouched (no `last_sync_at` stamp, no rows written).  The conclusion holds
for every note store and text context, so the result cannot depend on any
remote fetch. -/
theorem sync_disabled_notebook_skip (ctx : TextCtx) (defaultStore : NoteStore)
    (userId : Nat) (h : NotebookHandle) (now : Nat) (st : DB)
    (hdis : h.row.sync_enabled = false) :
    sync_notes_in_notebook ctx defaultStore userId h now st = (st, Except.ok 0) := by
  unfold sync_notes_in_notebook
  simp [hdis]

/-- A concrete sync-disabled notebook row. -/
def disabledNbRow : NotebookRow :=
  { id := 3, user_id := 1, notebook_guid := "nb-guid", name := "Research",
    stack := none, is_shared := false, shared_from := none,
    shared_notebook_guid := none, privilege := "READ", usn := 0,
    sync_enabled := false, last_sync_at := none, created_at := 0, updated_at := 0 }

theorem sync_disabled_notebook_skip_witness :
    sync_notes_in_notebook idCtx emptyStore 1 ⟨disabledNbRow, none⟩ 5 emptyDB =
      (emptyDB, Except.ok 0) :=
  sync_disabled_notebook_skip idCtx emptyStore 1 ⟨disabledNbRow, none⟩ 5 emptyDB rfl

/-! ### C6 -/

/-- C6: when a user's Evernote auth is invalid — token absent (or blank),
expiry absent, or expiry not in the future — `full_sync_user` raises
immediately and the returned state is exactly the input state: no `SyncLog`
row (and no other sync state) is written, for every remote environment. -/
theorem invalid_auth_fails_before_any_write (ctx : TextCtx) (env : EvernoteEnv)
    (user : UserRow) (now : Nat) (st : DB)
    (hbad : user.evernote_token = none ∨ user.evernote_token = some "" ∨
            user.token_expires_at = none ∨
            (∃ t, user.token_expires_at = some t ∧ t ≤ now)) :
    full_sync_user ctx env user now st =
      (st, Except.error ("User " ++ user.name ++ " has no valid Evernote token")) := by
  have hconn : is_evernote_connected user now = false := by
    unfold is_evernote_connected
    rcases hbad with h1 | h1 | h1 | ⟨t, h1, h2⟩
    · rw [h1]; simp
    · rw [h1]; simp
    · rw [h1]; simp
    · have h3 : (match user.token_expires_at with
          | none => false
          | some tt => (now < tt : Bool)) = false := by
        rw [h1]
        simp only [decide_eq_false_iff_not]
        omega
      rw [h3, Bool.and_false]
  unfold full_sync_user
  rw [hconn]
  simp

/-- A concrete user with an expired token. -/
def expiredUser : UserRow :=
  { id := 1, name := "alice", evernote_token := some "tok",
    token_expires_at := some 10, last_sync_at := none }

/-- A concrete (empty) remote environment. -/
def emptyEnv : EvernoteEnv := { store := emptyStore, ownNotebooks := [], linked := [] }

theorem invalid_auth_fails_before_any_write_witness :
    full_sync_user idCtx emptyEnv expiredUser 10 emptyDB =
      (emptyDB, Except.error ("User " ++ expiredUser.name ++ " has no valid Evernote token")) :=
  invalid_auth_fails_before_any_write idCtx emptyEnv expiredUser 10 emptyDB
    (Or.inr (Or.inr (Or.inr ⟨10, rfl, le_refl 10⟩)))

/-! ### C7 (corrected: the conflict update also rewrites `updated_at`) -/

/-- A pre-existing notebook row for the C7 counterexample: `sync_enabled`
turned off by the user, `updated_at = 0`. -/
def c7Row : NotebookRow :=
  { id := 1, user_id := 1, notebook_guid := "nb-guid", name := "Research",
    stack := none, is_shared := false, shared_from := none,
    shared_notebook_guid := none, privilege := "READ", usn := 1,
    sync_enabled := false, last_sync_at := none, created_at := 0, updated_at := 0 }

/-- The same remote notebook observed again. -/
def c7Remote : RemoteNotebook :=
  { guid := "nb-guid", name := "Research", stack := none, updateSequenceNum := some 1 }

/-- A database holding only `c7Row`. -/
def c7DB : DB := { emptyDB with notebooks := [c7Row], nextNotebookId := 2 }

/-- C7 counterexample: re-syncing the identical remote notebook hits the
conflict branch and rewrites `updated_at` (0 becomes 5) even though name,
stack, shared-from label and update-sequence marker are all unchanged — so
the conflict update does not change *only* those four fields.  The
user-controlled `sync_enabled` does survive. -/
theorem conflict_update_touches_updated_at_cex :
    ((notebookUpsertOwn c7DB 1 c7Remote 5).2).updated_at ≠ c7Row.updated_at ∧
    ((notebookUpsertOwn c7DB 1 c7Remote 5).2).name = c7Row.name ∧
    ((notebookUpsertOwn c7DB 1 c7Remote 5).2).stack = c7Row.stack ∧
    ((notebookUpsertOwn c7DB 1 c7Remote 5).2).shared_from = c7Row.shared_from ∧
    ((notebookUpsertOwn c7DB 1 c7Remote 5).2).usn = c7Row.usn ∧
    ((notebookUpsertOwn c7DB 1 c7Remote 5).2).sync_enabled = c7Row.sync_enabled ∧
    (notebookUpsertOwn c7DB 1 c7Remote 5).1.notebooks =
      [(notebookUpsertOwn c7DB 1 c7Remote 5).2] := by
  decide

/-- C7 (amended): on conflict, the own-notebook upsert overwrites exactly
name, stack, update-sequence marker and the `updated_at` bookkeeping
timestamp, and the linked-notebook upsert exactly name, shared-from label and
`updated_at`; every other column — in particular `sync_enabled`, and also
privilege and `last_sync_at` — is preserved, on the returned row and in the
table. -/
theorem notebook_conflict_update_frame :
    (∀ (st : DB) (userId : Nat) (nb : RemoteNotebook) (now : Nat) (row : NotebookRow),
      st.notebooks.find? (fun r => r.user_id == userId && r.notebook_guid == nb.guid) = some row →
      (notebookUpsertOwn st userId nb now).2 =
        { row with name := nb.name, stack := nb.stack,
                   usn := pyOrNat nb.updateSequenceNum 0, updated_at := now } ∧
      (notebookUpsertOwn st userId nb now).1.notebooks =
        st.notebooks.map (fun r =>
          if r.user_id = userId ∧ r.notebook_guid = nb.guid then
            (notebookUpsertOwn st userId nb now).2
          else r)) ∧
    (∀ (st : DB) (userId : Nat) (lnb : RemoteLinkedNotebook) (snb : SharedNotebook)
       (now : Nat) (row : NotebookRow),
      st.notebooks.find?
        (fun r => r.user_id == userId && r.notebook_guid == snb.notebookGuid) = some row →
      (notebookUpsertLinked st userId lnb snb now).2 =
        { row with name := pyOrStr lnb.shareName "Shared Notebook",
                   shared_from := some (pyOrStr lnb.username (pyOrStr lnb.shareName "Unknown")),
                   updated_at := now } ∧
      (notebookUpsertLinked st userId lnb snb now).1.notebooks =
        st.notebooks.map (fun r =>
          if r.user_id = userId ∧ r.notebook_guid = snb.notebookGuid then
            (notebookUpsertLinked st userId lnb snb now).2
          else r)) := by
  constructor
  · intro st userId nb now row hfind
    unfold notebookUpsertOwn
    rw [hfind]
    exact ⟨rfl, rfl⟩
  · intro st userId lnb snb now row hfind
    unfold notebookUpsertLinked
    rw [hfind]
    exact ⟨rfl, rfl⟩

theorem notebook_conflict_update_frame_witness :
    (notebookUpsertOwn c7DB 1 c7Remote 5).2 =
      { c7Row with name := c7Remote.name, stack := c7Remote.stack,
                   usn := pyOrNat c7Remote.updateSequenceNum 0, updated_at := 5 } :=
  ((notebook_conflict_update_frame.1 c7DB 1 c7Remote 5 c7Row) (by decide)).1

/-! ### C3 -/

/-- C3: for a note whose GUID is already present: a matching fingerprint
leaves the `notes` table untouched (no field of the row is mutated) and is
reported unchanged (`False`); a differing fingerprint overwrites exactly
title, content, plain text, fingerprint, length and the update timestamps on
the existing row (`updatedNoteRow`) and is reported updated (`True`). -/
theorem fingerprint_gates_note_update (ctx : TextCtx) (store : NoteStore)
    (userId notebookId now : Nat) (st : DB) (m : NoteMeta) (ex : NoteRow) (n : RemoteNote)
    (hfind : findByGuid st m.guid = some ex)
    (hget : store.getNote m.guid = Except.ok n) :
    (ex.content_hash = ctx.md5Hex (pyOrStr n.content "") →
      (_sync_single_note ctx store userId notebookId now st m).1.notes = st.notes ∧
      (_sync_single_note ctx store userId notebookId now st m).2 = Except.ok false) ∧
    (ex.content_hash ≠ ctx.md5Hex (pyOrStr n.content "") →
      (_sync_single_note ctx store userId notebookId now st m).1.notes =
        st.notes.map (fun r => if r.id = ex.id then updatedNoteRow ctx now ex n else r) ∧
      (_sync_single_note ctx store userId notebookId now st m).2 = Except.ok true) := by
  constructor
  · intro hh
    simp only [_sync_single_note, hfind, hget, hh, if_pos, _ensure_note_access]
    exact ⟨trivial, trivial⟩
  · intro hh
    simp only [_sync_single_note, hfind, hget, if_neg hh, _ensure_note_access]
    obtain ⟨tg, ntg, k, hshape⟩ :=
      sync_note_tags_shape store
        { st with
          noteAccess := ensureList st.noteAccess ex.id userId now
          notes := st.notes.map (fun r => if r.id = ex.id then updatedNoteRow ctx now ex n else r) }
        ex.id n.tagGuids
    rw [hshape]
    exact ⟨rfl, trivial⟩

/-! ### C2 (corrected: a per-note fetch failure is not caught) -/

theorem syncMetas_cons_error (ctx : TextCtx) (s : NoteStore) (u nbid now : Nat)
    (st st1 : DB) (m : NoteMeta) (ms : List NoteMeta) (acc : Nat) (e : String)
    (hfail : _sync_single_note ctx s u nbid now st m = (st1, Except.error e)) :
    syncMetas ctx s u nbid now st (m :: ms) acc = (st1, Except.error e) := by
  have hR : syncMetas ctx s u nbid now st (m :: ms) acc =
      (match _sync_single_note ctx s u nbid now st m with
       | (st1, Except.error e) => (st1, Except.error e)
       | (st1, Except.ok b) =>
         syncMetas ctx s u nbid now st1 ms (if b then acc + 1 else acc)) := rfl
  rw [hR, hfail]

theorem sync_notes_first_note_error (ctx : TextCtx) (d : NoteStore) (uid : Nat)
    (h : NotebookHandle) (now : Nat) (st st1 : DB) (m : NoteMeta) (rest : List NoteMeta)
    (e : String)
    (hen : h.row.sync_enabled = true)
    (hlist : (noteStoreFor d h).listing (noteFilterGuid h) = m :: rest)
    (hfail : _sync_single_note ctx (noteStoreFor d h) uid h.row.id now st m =
      (st1, Except.error e)) :
    sync_notes_in_notebook ctx d uid h now st = (st1, Except.error e) := by
  rw [sync_notes_in_notebook_enabled ctx d uid h now st hen, hlist,
      syncMetas_cons_error ctx (noteStoreFor d h) uid h.row.id now st st1 m rest 0 e hfail]

/-- A remote store whose note listing has two notes and whose content fetch
fails for every GUID except `"n2"`. -/
def failStore : NoteStore :=
  { listing := fun g => if g = "nb-guid" then [⟨"n1"⟩, ⟨"n2"⟩] else []
    getNote := fun g =>
      if g = "n2" then
        Except.ok { title := some "B", content := some "b", contentLength := some 1,
                    created := none, updated := none, tagGuids := none, attributes := none }
      else Except.error "network down"
    getTag := fun _ => Except.error "missing" }

/-- The sync-enabled notebook row used by the per-note failure scenarios. -/
def enabledNbRow : NotebookRow := { disabledNbRow with sync_enabled := true }

/-- C2 counterexample: in a notebook of two notes where the content fetch of
the first note ("n1") raises, the notebook sync does not catch the error and
continue to the next note ("n2"): it returns the raised error, and the
second note is never stored — the claim's "logged, counted as an error, and
the loop continues" behaviour does not exist in the code (there is no
try/except around `_sync_single_note`). -/
theorem note_fetch_error_aborts_notebook_cex :
    (sync_notes_in_notebook idCtx failStore 1 ⟨enabledNbRow, none⟩ 5 emptyDB).2 =
      Except.error "network down" ∧
    findByGuid (sync_notes_in_notebook idCtx failStore 1 ⟨enabledNbRow, none⟩ 5 emptyDB).1 "n2" =
      none ∧
    (sync_notes_in_notebook idCtx failStore 1 ⟨enabledNbRow, none⟩ 5 emptyDB).1.notes = [] := by
  have h := sync_notes_first_note_error idCtx failStore 1 ⟨enabledNbRow, none⟩ 5 emptyDB
    emptyDB ⟨"n1"⟩ [⟨"n2"⟩] "network down" rfl rfl rfl
  rw [h]
  exact ⟨rfl, rfl, rfl⟩

/-- C2 (amended): a content-fetch failure for a single note is *not* caught
at the per-note granularity: the exception propagates out of the per-note
loop, the notebook sync returns it immediately in exactly the state reached
at the raise (no later note of the notebook is processed, no error tally is
kept, and no `last_sync_at` stamp is written), surfacing to the
orchestrator. -/
theorem note_fetch_failure_propagates (ctx : TextCtx) (d : NoteStore) (uid : Nat)
    (h : NotebookHandle) (now : Nat) (st st1 : DB) (m : NoteMeta) (rest : List NoteMeta)
    (e : String)
    (hen : h.row.sync_enabled = true)
    (hlist : (noteStoreFor d h).listing (noteFilterGuid h) = m :: rest)
    (hfail : _sync_single_note ctx (noteStoreFor d h) uid h.row.id now st m =
      (st1, Except.error e)) :
    sync_notes_in_notebook ctx d uid h now st = (st1, Except.error e) :=
  sync_notes_first_note_error ctx d uid h now st st1 m rest e hen hlist hfail

theorem note_fetch_failure_propagates_witness :
    sync_notes_in_notebook idCtx failStore 1 ⟨enabledNbRow, none⟩ 5 emptyDB =
      (emptyDB, Except.error "network down") :=
  note_fetch_failure_propagates idCtx failStore 1 ⟨enabledNbRow, none⟩ 5 emptyDB
    emptyDB ⟨"n1"⟩ [⟨"n2"⟩] "network down" rfl rfl rfl

/-- A stored note row for the C3/C4 witnesses. -/
def wNoteRow : NoteRow :=
  { id := 1, evernote_guid := "note-guid", notebook_id := some 3, source_user_id := 1,
    title := "T", plain_text := "body", enml_content := some "body",
    content_hash := "body", content_length := 4, source_url := none, author := none,
    en_created := none, en_updated := none, created_at := 0, updated_at := 0 }

/-- A database holding `wNoteRow` and an access row for user 1. -/
def wNoteDB : DB :=
  { emptyDB with
    notes := [wNoteRow]
    noteAccess := [{ note_id := 1, user_id := 1, access_type := "SYNC", synced_at := 0 }]
    nextNoteId := 2 }

/-- A store serving the same remote note content "body" for that GUID. -/
def wStore : NoteStore :=
  { listing := fun g => if g = "nb-guid" then [⟨"note-guid"⟩] else []
    getNote := fun g =>
      if g = "note-guid" then
        Except.ok { title := some "T", content := some "body", contentLength := some 4,
                    created := none, updated := none, tagGuids := none, attributes := none }
      else Except.error "not found"
    getTag := fun _ => Except.error "missing" }

theorem fingerprint_gates_note_update_witness :
    (_sync_single_note idCtx wStore 2 3 9 wNoteDB ⟨"note-guid"⟩).1.notes = wNoteDB.notes ∧
    (_sync_single_note idCtx wStore 2 3 9 wNoteDB ⟨"note-guid"⟩).2 = Except.ok false := by
  have h := fingerprint_gates_note_update idCtx wStore 2 3 9 wNoteDB ⟨"note-guid"⟩ wNoteRow
    { title := some "T", content := some "body", contentLength := some 4,
      created := none, updated := none, tagGuids := none, attributes := none }
    (by decide) (by rfl)
  exact h.1 (by decide)

/-! ### Deduplication invariant machinery -/

/-- The per-(store, user) postcondition that processing a GUID establishes:
a row for the GUID is findable, its fingerprint matches the store's current
content for that GUID, and the user holds a `NoteAccess` row on it. -/
def SyncedNote (ctx : TextCtx) (s : NoteStore) (uid : Nat) (st : DB) (g : String) : Prop :=
  ∃ r n, findByGuid st g = some r ∧ s.getNote g = Except.ok n ∧
    r.content_hash = ctx.md5Hex (pyOrStr n.content "") ∧
    hasAccess st r.id uid = true

theorem findByGuid_mem {st : DB} {g : String} {r : NoteRow}
    (h : findByGuid st g = some r) : r ∈ st.notes :=
  List.mem_of_find?_eq_some h

theorem findByGuid_guid {st : DB} {g : String} {r : NoteRow}
    (h : findByGuid st g = some r) : r.evernote_guid = g := by
  have h2 := List.find?_some h
  simpa using h2

theorem ensure_note_access_noop (st : DB) (nid uid now : Nat)
    (h : hasAccess st nid uid = true) : _ensure_note_access st nid uid now = st := by
  unfold _ensure_note_access
  rw [ensureList_present st.noteAccess nid uid now h]

theorem ensure_note_access_grants (st : DB) (nid uid now : Nat) :
    hasAccess (_ensure_note_access st nid uid now) nid uid = true :=
  ensureList_grants st.noteAccess nid uid now

theorem countP_le_one_of_nodup {l : List String} (hl : l.Nodup) (g : String) :
    l.countP (fun x => x == g) ≤ 1 := by
  induction l with
  | nil => simp
  | cons a t ih =>
    rw [List.countP_cons]
    rcases List.nodup_cons.mp hl with ⟨ha, ht⟩
    by_cases hag : a = g
    · subst hag
      have hz : t.countP (fun x => x == a) = 0 := by
        rw [List.countP_eq_zero]
        intro x hx
        simp only [beq_iff_eq]
        intro hxa
        exact ha (hxa ▸ hx)
      simp [hz]
    · have h0 : (if ((fun x => x == g) a : Bool) = true then 1 else 0) = 0 := by
        simp only [beq_iff_eq]
        rw [if_neg hag]
      rw [h0]
      simpa using ih ht

theorem countGuid_eq (st : DB) (g : String) :
    countGuid st g =
      (st.notes.map (fun r => r.evernote_guid)).countP (fun x => x == g) := by
  unfold countGuid
  rw [List.countP_map]
  rfl

theorem countGuid_le_one {st : DB} (hwf : WFNotes st) (g : String) :
    countGuid st g ≤ 1 := by
  rw [countGuid_eq]
  exact countP_le_one_of_nodup hwf.2.2 g

theorem countGuid_pos {st : DB} {g : String} {r : NoteRow}
    (h : findByGuid st g = some r) : 1 ≤ countGuid st g := by
  unfold countGuid
  have hm := List.mem_of_find?_eq_some h
  have hp := List.find?_some h
  have hpos : 0 < st.notes.countP (fun rr => rr.evernote_guid == g) :=
    List.countP_pos_iff.mpr ⟨r, hm, hp⟩
  omega

theorem map_proj_eq {α : Type} (l : List NoteRow) (φ : NoteRow → NoteRow)
    (f : NoteRow → α) (hφ : ∀ r ∈ l, f (φ r) = f r) :
    (l.map φ).map f = l.map f := by
  rw [List.map_map]
  exact List.map_congr_left hφ

theorem find?_cons_eq {α : Type} (p : α → Bool) (a : α) (l : List α) :
    List.find? p (a :: l) = if p a then some a else List.find? p l := by
  by_cases h : p a = true
  · rw [List.find?_cons_of_pos _ h, if_pos h]
  · rw [List.find?_cons_of_neg _ h, if_neg h]

theorem find?_guid_map (l : List NoteRow) (φ : NoteRow → NoteRow)
    (hφ : ∀ r ∈ l, (φ r).evernote_guid = r.evernote_guid) (g : String) :
    (l.map φ).find? (fun r => r.evernote_guid == g) =
      ((l.find? (fun r => r.evernote_guid == g)).map φ) := by
  induction l with
  | nil => rfl
  | cons a t ih =>
    have ha := hφ a (List.mem_cons_self a t)
    rw [List.map_cons,
        find?_cons_eq (fun r => r.evernote_guid == g) (φ a) (List.map φ t),
        find?_cons_eq (fun r => r.evernote_guid == g) a t]
    rw [ha]
    by_cases hag : (a.evernote_guid == g) = true
    · rw [if_pos hag, if_pos hag]
      rfl
    · rw [if_neg hag, if_neg hag]
      exact ih (fun r hr => hφ r (List.mem_cons_of_mem a hr))

/-- The "found, fingerprint matches" branch of `_sync_single_note`. -/
theorem sync_single_found_same (ctx : TextCtx) (s : NoteStore) (uid nbid now : Nat)
    (st : DB) (m : NoteMeta) (ex : NoteRow) (n : RemoteNote)
    (hfind : findByGuid st m.guid = some ex)
    (hget : s.getNote m.guid = Except.ok n)
    (hh : ex.content_hash = ctx.md5Hex (pyOrStr n.content "")) :
    _sync_single_note ctx s uid nbid now st m =
      (_ensure_note_access st ex.id uid now, Except.ok false) := by
  unfold _sync_single_note
  rw [hfind]
  dsimp only
  rw [hget]
  dsimp only
  rw [if_pos hh]

/-- The "found, fingerprint differs" branch of `_sync_single_note`. -/
theorem sync_single_found_diff (ctx : TextCtx) (s : NoteStore) (uid nbid now : Nat)
    (st : DB) (m : NoteMeta) (ex : NoteRow) (n : RemoteNote)
    (hfind : findByGuid st m.guid = some ex)
    (hget : s.getNote m.guid = Except.ok n)
    (hh : ¬ex.content_hash = ctx.md5Hex (pyOrStr n.content "")) :
    _sync_single_note ctx s uid nbid now st m =
      (_sync_note_tags s
        { st with
          noteAccess := ensureList st.noteAccess ex.id uid now
          notes := st.notes.map
            (fun r => if r.id = ex.id then updatedNoteRow ctx now ex n else r) }
        ex.id n.tagGuids,
       Except.ok true) := by
  unfold _sync_single_note
  rw [hfind]
  dsimp only
  rw [hget]
  dsimp only
  rw [if_neg hh]
  rfl

/-- The "new note" branch of `_sync_single_note`. -/
theorem sync_single_new (ctx : TextCtx) (s : NoteStore) (uid nbid now : Nat)
    (st : DB) (m : NoteMeta) (n : RemoteNote)
    (hfind : findByGuid st m.guid = none)
    (hget : s.getNote m.guid = Except.ok n) :
    _sync_single_note ctx s uid nbid now st m =
      (_sync_note_tags s
        (_ensure_note_access
          { st with
            notes := st.notes ++ [newNoteRow ctx uid nbid st.nextNoteId now m.guid n]
            nextNoteId := st.nextNoteId + 1 }
          st.nextNoteId uid now)
        st.nextNoteId n.tagGuids,
       Except.ok true) := by
  unfold _sync_single_note
  rw [hfind]
  dsimp only
  rw [hget]
  rfl

/-- Found branch with a failing content fetch: the raise happens after the
access grant has been executed on the session. -/
theorem sync_single_found_fetch_error (ctx : TextCtx) (s : NoteStore)
    (uid nbid now : Nat) (st : DB) (m : NoteMeta) (ex : NoteRow) (e : String)
    (hfind : findByGuid st m.guid = some ex)
    (hget : s.getNote m.guid = Except.error e) :
    _sync_single_note ctx s uid nbid now st m =
      (_ensure_note_access st ex.id uid now, Except.error e) := by
  unfold _sync_single_note
  rw [hfind]
  dsimp only
  rw [hget]

/-- New-note branch with a failing content fetch: nothing is written. -/
theorem sync_single_new_fetch_error (ctx : TextCtx) (s : NoteStore)
    (uid nbid now : Nat) (st : DB) (m : NoteMeta) (e : String)
    (hfind : findByGuid st m.guid = none)
    (hget : s.getNote m.guid = Except.error e) :
    _sync_single_note ctx s uid nbid now st m = (st, Except.error e) := by
  unfold _sync_single_note
  rw [hfind]
  dsimp only
  rw [hget]

/-- Processing a GUID that is already `SyncedNote` for this user and store is
the identity: the access insert is a no-op and the fingerprint matches, so
nothing is written and the note is reported unchanged. -/
theorem sync_single_note_identity (ctx : TextCtx) (s : NoteStore)
    (uid nbid now : Nat) (st : DB) (m : NoteMeta)
    (hs : SyncedNote ctx s uid st m.guid) :
    _sync_single_note ctx s uid nbid now st m = (st, Except.ok false) := by
  obtain ⟨r, n, hfind, hget, hhash, hacc⟩ := hs
  rw [sync_single_found_same ctx s uid nbid now st m r n hfind hget hhash]
  rw [ensure_note_access_noop st r.id uid now hacc]

/-- Postconditions of a successfully processed note, from a well-formed
state: well-formedness is preserved, access rows only grow, every findable
row keeps its primary key and GUID, the processed GUID ends up `SyncedNote`
for the requesting user, and every previously `SyncedNote` GUID (any user)
stays so. -/
theorem sync_single_note_ok (ctx : TextCtx) (s : NoteStore) (uid nbid now : Nat)
    (st st' : DB) (m : NoteMeta) (b : Bool)
    (hwf : WFNotes st)
    (hrun : _sync_single_note ctx s uid nbid now st m = (st', Except.ok b)) :
    WFNotes st' ∧
    st.noteAccess ⊆ st'.noteAccess ∧
    (∀ g r, findByGuid st g = some r →
      ∃ r', findByGuid st' g = some r' ∧ r'.id = r.id ∧ r'.evernote_guid = r.evernote_guid) ∧
    SyncedNote ctx s uid st' m.guid ∧
    (∀ g u', SyncedNote ctx s u' st g → SyncedNote ctx s u' st' g) := by
  cases hfind : findByGuid st m.guid with
  | some ex =>
    cases hget : s.getNote m.guid with
    | error e =>
      rw [sync_single_found_fetch_error ctx s uid nbid now st m ex e hfind hget] at hrun
      exact absurd (congrArg Prod.snd hrun) (by simp)
    | ok n =>
      by_cases hh : ex.content_hash = ctx.md5Hex (pyOrStr n.content "")
      · rw [sync_single_found_same ctx s uid nbid now st m ex n hfind hget hh] at hrun
        injection hrun with h1 h2
        subst h1
        refine ⟨hwf, ensureList_subset _ _ _ _, ?_, ?_, ?_⟩
        · intro g r hf
          exact ⟨r, hf, rfl, rfl⟩
        · exact ⟨ex, n, hfind, hget, hh, ensure_note_access_grants st ex.id uid now⟩
        · rintro g u' ⟨r, nr, h1, h2, h3, h4⟩
          exact ⟨r, nr, h1, h2, h3, any_mono_of_subset (ensureList_subset _ _ _ _) h4⟩
      · rw [sync_single_found_diff ctx s uid nbid now st m ex n hfind hget hh] at hrun
        obtain ⟨tg, ntg, k, hshape⟩ := sync_note_tags_shape s
          { st with
            noteAccess := ensureList st.noteAccess ex.id uid now
            notes := st.notes.map
              (fun r => if r.id = ex.id then updatedNoteRow ctx now ex n else r) }
          ex.id n.tagGuids
        rw [hshape] at hrun
        injection hrun with h1 h2
        subst h1
        have hmem_ex : ex ∈ st.notes := findByGuid_mem hfind
        have hidp : ∀ r : NoteRow,
            ((fun r => if r.id = ex.id then updatedNoteRow ctx now ex n else r) r).id = r.id := by
          intro r
          show (if r.id = ex.id then updatedNoteRow ctx now ex n else r).id = r.id
          by_cases hr : r.id = ex.id
          · rw [if_pos hr, hr]
            rfl
          · rw [if_neg hr]
        have hgp : ∀ r ∈ st.notes,
            ((fun r => if r.id = ex.id then updatedNoteRow ctx now ex n else r) r).evernote_guid =
              r.evernote_guid := by
          intro r hr
          show (if r.id = ex.id then updatedNoteRow ctx now ex n else r).evernote_guid =
            r.evernote_guid
          by_cases hre : r.id = ex.id
          · have hrex : r = ex := List.inj_on_of_nodup_map hwf.1 hr hmem_ex hre
            subst hrex
            rw [if_pos rfl]
            rfl
          · rw [if_neg hre]
        have hfmap := find?_guid_map st.notes
          (fun r => if r.id = ex.id then updatedNoteRow ctx now ex n else r) hgp
        refine ⟨⟨?_, ?_, ?_⟩, ?_, ?_, ?_, ?_⟩
        · show ((st.notes.map
            (fun r => if r.id = ex.id then updatedNoteRow ctx now ex n else r)).map
              (fun r => r.id)).Nodup
          rw [map_proj_eq st.notes _ (fun r => r.id) (fun r _ => hidp r)]
          exact hwf.1
        · intro r' hr'
          obtain ⟨r, hr, hreq⟩ := List.mem_map.mp hr'
          show r'.id < st.nextNoteId
          rw [← hreq, hidp r]
          exact hwf.2.1 r hr
        · show ((st.notes.map
            (fun r => if r.id = ex.id then updatedNoteRow ctx now ex n else r)).map
              (fun r => r.evernote_guid)).Nodup
          rw [map_proj_eq st.notes _ (fun r => r.evernote_guid) hgp]
          exact hwf.2.2
        · show st.noteAccess ⊆ ensureList st.noteAccess ex.id uid now
          exact ensureList_subset _ _ _ _
        · intro g r hf
          refine ⟨(fun r => if r.id = ex.id then updatedNoteRow ctx now ex n else r) r,
            ?_, hidp r, hgp r (findByGuid_mem hf)⟩
          show (st.notes.map
            (fun r => if r.id = ex.id then updatedNoteRow ctx now ex n else r)).find?
              (fun rr => rr.evernote_guid == g) = _
          rw [hfmap g]
          have hf2 : List.find? (fun rr => rr.evernote_guid == g) st.notes = some r := hf
          rw [hf2]
          rfl
        · refine ⟨updatedNoteRow ctx now ex n, n, ?_, hget, rfl, ?_⟩
          · show (st.notes.map
              (fun r => if r.id = ex.id then updatedNoteRow ctx now ex n else r)).find?
                (fun rr => rr.evernote_guid == m.guid) = _
            rw [hfmap m.guid]
            have hf2 : List.find? (fun rr => rr.evernote_guid == m.guid) st.notes = some ex := hfind
            rw [hf2]
            simp
          · exact ensureList_grants st.noteAccess ex.id uid now
        · rintro g u' ⟨r, nr, h1, h2, h3, h4⟩
          by_cases hre : r.id = ex.id
          · have hrex : r = ex := List.inj_on_of_nodup_map hwf.1 (findByGuid_mem h1) hmem_ex hre
            subst hrex
            have hgm : g = m.guid := by
              rw [← findByGuid_guid h1, findByGuid_guid hfind]
            subst hgm
            have hnn : nr = n := by
              have := hget.symm.trans h2
              exact (Except.ok.inj this).symm
            subst hnn
            refine ⟨updatedNoteRow ctx now r nr, nr, ?_, hget, rfl, ?_⟩
            · show (st.notes.map
                (fun rr => if rr.id = r.id then updatedNoteRow ctx now r nr else rr)).find?
                  (fun rr => rr.evernote_guid == m.guid) = _
              rw [hfmap m.guid]
              have hf2 : List.find? (fun rr => rr.evernote_guid == m.guid) st.notes = some r := h1
              rw [hf2]
              simp
            · exact any_mono_of_subset (ensureList_subset _ _ _ _) h4
          · refine ⟨r, nr, ?_, h2, h3, any_mono_of_subset (ensureList_subset _ _ _ _) h4⟩
            show (st.notes.map
              (fun rr => if rr.id = ex.id then updatedNoteRow ctx now ex n else rr)).find?
                (fun rr => rr.evernote_guid == g) = _
            rw [hfmap g]
            have hf2 : List.find? (fun rr => rr.evernote_guid == g) st.notes = some r := h1
            rw [hf2]
            simp [hre]
  | none =>
    cases hget : s.getNote m.guid with
    | error e =>
      rw [sync_single_new_fetch_error ctx s uid nbid now st m e hfind hget] at hrun
      exact absurd (congrArg Prod.snd hrun) (by simp)
    | ok n =>
      rw [sync_single_new ctx s uid nbid now st m n hfind hget] at hrun
      obtain ⟨tg, ntg, k, hshape⟩ := sync_note_tags_shape s
        (_ensure_note_access
          { st with
            notes := st.notes ++ [newNoteRow ctx uid nbid st.nextNoteId now m.guid n]
            nextNoteId := st.nextNoteId + 1 }
          st.nextNoteId uid now)
        st.nextNoteId n.tagGuids
      rw [hshape] at hrun
      injection hrun with h1 h2
      subst h1
      have hnotin : ∀ x ∈ st.notes, ¬x.evernote_guid = m.guid := by
        intro x hx
        have hnp := List.find?_eq_none.mp hfind x hx
        simpa using hnp
      refine ⟨⟨?_, ?_, ?_⟩, ?_, ?_, ?_, ?_⟩
      · show ((st.notes ++ [newNoteRow ctx uid nbid st.nextNoteId now m.guid n]).map
          (fun r => r.id)).Nodup
        rw [List.map_append]
        refine List.nodup_append.mpr ⟨hwf.1, by simp, ?_⟩
        intro a ha hb
        obtain ⟨r, hr, hreq⟩ := List.mem_map.mp ha
        have hlt := hwf.2.1 r hr
        have hb2 : a = st.nextNoteId := by simpa using hb
        omega
      · intro r' hr'
        show r'.id < st.nextNoteId + 1
        rcases List.mem_append.mp hr' with hcase | hcase
        · have := hwf.2.1 r' hcase
          omega
        · rw [List.mem_singleton.mp hcase]
          exact Nat.lt_succ_self _
      · show ((st.notes ++ [newNoteRow ctx uid nbid st.nextNoteId now m.guid n]).map
          (fun r => r.evernote_guid)).Nodup
        rw [List.map_append]
        refine List.nodup_append.mpr ⟨hwf.2.2, by simp, ?_⟩
        intro a ha hb
        obtain ⟨r, hr, hreq⟩ := List.mem_map.mp ha
        have hb2 : a = m.guid := by simpa using hb
        exact hnotin r hr (by rw [hreq, hb2])
      · show st.noteAccess ⊆ ensureList st.noteAccess st.nextNoteId uid now
        exact ensureList_subset _ _ _ _
      · intro g r hf
        refine ⟨r, ?_, rfl, rfl⟩
        show (st.notes ++ [newNoteRow ctx uid nbid st.nextNoteId now m.guid n]).find?
          (fun rr => rr.evernote_guid == g) = _
        have hf2 : List.find? (fun rr => rr.evernote_guid == g) st.notes = some r := hf
        rw [List.find?_append, hf2]
        rfl
      · refine ⟨newNoteRow ctx uid nbid st.nextNoteId now m.guid n, n, ?_, hget, rfl, ?_⟩
        · show (st.notes ++ [newNoteRow ctx uid nbid st.nextNoteId now m.guid n]).find?
            (fun rr => rr.evernote_guid == m.guid) = _
          have hf2 : List.find? (fun rr => rr.evernote_guid == m.guid) st.notes = none := hfind
          rw [List.find?_append, hf2]
          simp only [Option.none_or]
          rw [find?_cons_eq (fun rr => rr.evernote_guid == m.guid)
            (newNoteRow ctx uid nbid st.nextNoteId now m.guid n) []]
          rw [if_pos (show ((newNoteRow ctx uid nbid st.nextNoteId now m.guid n).evernote_guid ==
            m.guid) = true by simp [newNoteRow])]
        · exact ensureList_grants st.noteAccess st.nextNoteId uid now
      · rintro g u' ⟨r, nr, h1, h2, h3, h4⟩
        refine ⟨r, nr, ?_, h2, h3, any_mono_of_subset (ensureList_subset _ _ _ _) h4⟩
        show (st.notes ++ [newNoteRow ctx uid nbid st.nextNoteId now m.guid n]).find?
          (fun rr => rr.evernote_guid == g) = _
        have hf2 : List.find? (fun rr => rr.evernote_guid == g) st.notes = some r := h1
        rw [List.find?_append, hf2]
        rfl

/-- Induction of `sync_single_note_ok` over the per-page note loop. -/
theorem syncMetas_ok_invariant (ctx : TextCtx) (s : NoteStore) (uid nbid now : Nat) :
    ∀ (metas : List NoteMeta) (st st' : DB) (acc acc' : Nat),
      WFNotes st →
      syncMetas ctx s uid nbid now st metas acc = (st', Except.ok acc') →
      WFNotes st' ∧
      st.noteAccess ⊆ st'.noteAccess ∧
      (∀ g r, findByGuid st g = some r →
        ∃ r', findByGuid st' g = some r' ∧ r'.id = r.id ∧ r'.evernote_guid = r.evernote_guid) ∧
      (∀ g u', SyncedNote ctx s u' st g → SyncedNote ctx s u' st' g) ∧
      (∀ m ∈ metas, SyncedNote ctx s uid st' m.guid) := by
  intro metas
  induction metas with
  | nil =>
    intro st st' acc acc' hwf hrun
    injection hrun with h1 h2
    subst h1
    refine ⟨hwf, fun a ha => ha, ?_, fun g u' hs => hs, by simp⟩
    intro g r hf
    exact ⟨r, hf, rfl, rfl⟩
  | cons m rest ih =>
    intro st st' acc acc' hwf hrun
    have hL : syncMetas ctx s uid nbid now st (m :: rest) acc =
        (match _sync_single_note ctx s uid nbid now st m with
         | (st1, Except.error e) => (st1, Except.error e)
         | (st1, Except.ok b) =>
           syncMetas ctx s uid nbid now st1 rest (if b then acc + 1 else acc)) := rfl
    rw [hL] at hrun
    cases hstep : _sync_single_note ctx s uid nbid now st m with
    | mk st1 r =>
      rw [hstep] at hrun
      cases r with
      | error e =>
        exact absurd (congrArg Prod.snd hrun) (by simp)
      | ok b =>
        dsimp only at hrun
        obtain ⟨hwf1, hsub1, hfind1, hsyncm1, htrans1⟩ :=
          sync_single_note_ok ctx s uid nbid now st st1 m b hwf hstep
        obtain ⟨hwf2, hsub2, hfind2, htrans2, hsync2⟩ :=
          ih st1 st' (if b then acc + 1 else acc) acc' hwf1 hrun
        refine ⟨hwf2, hsub1.trans hsub2, ?_,
          fun g u' hs => htrans2 g u' (htrans1 g u' hs), ?_⟩
        · intro g r hf
          obtain ⟨r1, h1, hid1, hg1⟩ := hfind1 g r hf
          obtain ⟨r2, h2, hid2, hg2⟩ := hfind2 g r1 h1
          exact ⟨r2, h2, by rw [hid2, hid1], by rw [hg2, hg1]⟩
        · intro mm hmm
          rcases List.mem_cons.mp hmm with heq | hmm'
          · subst heq
            exact htrans2 mm.guid uid hsyncm1
          · exact hsync2 mm hmm'

/-- A pass over notes that are all already synced for this user and store is
the identity and reports nothing new. -/
theorem syncMetas_all_synced (ctx : TextCtx) (s : NoteStore) (uid nbid now : Nat) :
    ∀ (metas : List NoteMeta) (st : DB) (acc : Nat),
      (∀ m ∈ metas, SyncedNote ctx s uid st m.guid) →
      syncMetas ctx s uid nbid now st metas acc = (st, Except.ok acc) := by
  intro metas
  induction metas with
  | nil => intro st acc hall; rfl
  | cons m rest ih =>
    intro st acc hall
    have hL : syncMetas ctx s uid nbid now st (m :: rest) acc =
        (match _sync_single_note ctx s uid nbid now st m with
         | (st1, Except.error e) => (st1, Except.error e)
         | (st1, Except.ok b) =>
           syncMetas ctx s uid nbid now st1 rest (if b then acc + 1 else acc)) := rfl
    rw [hL, sync_single_note_identity ctx s uid nbid now st m (hall m (List.mem_cons_self m rest))]
    dsimp only
    exact ih st acc (fun mm hmm => hall mm (List.mem_cons_of_mem m hmm))

/-- Notebook-level invariant: a successful `sync_notes_in_notebook` preserves
well-formedness, only grows the access table, keeps every row's key and GUID
findable, transports `SyncedNote` facts, and (when the notebook is enabled)
establishes `SyncedNote` for every listed note for the syncing user. -/
theorem sync_notes_ok_invariant (ctx : TextCtx) (d : NoteStore) (uid : Nat)
    (h : NotebookHandle) (now : Nat) (st st' : DB) (k : Nat)
    (hwf : WFNotes st)
    (hok : sync_notes_in_notebook ctx d uid h now st = (st', Except.ok k)) :
    WFNotes st' ∧
    st.noteAccess ⊆ st'.noteAccess ∧
    (∀ g r, findByGuid st g = some r →
      ∃ r', findByGuid st' g = some r' ∧ r'.id = r.id ∧ r'.evernote_guid = r.evernote_guid) ∧
    (∀ g u', SyncedNote ctx (noteStoreFor d h) u' st g →
      SyncedNote ctx (noteStoreFor d h) u' st' g) ∧
    (h.row.sync_enabled = true →
      ∀ m ∈ (noteStoreFor d h).listing (noteFilterGuid h),
        SyncedNote ctx (noteStoreFor d h) uid st' m.guid) := by
  by_cases hen : h.row.sync_enabled = true
  · rw [sync_notes_in_notebook_enabled ctx d uid h now st hen] at hok
    cases hrun : syncMetas ctx (noteStoreFor d h) uid h.row.id now st
        ((noteStoreFor d h).listing (noteFilterGuid h)) 0 with
    | mk st1 r =>
      rw [hrun] at hok
      cases r with
      | error e =>
        exact absurd (congrArg Prod.snd hok) (by simp)
      | ok total =>
        dsimp only at hok
        injection hok with h1 h2
        subst h1
        obtain ⟨hwf1, hsub1, hfind1, htrans1, hsync1⟩ :=
          syncMetas_ok_invariant ctx (noteStoreFor d h) uid h.row.id now
            ((noteStoreFor d h).listing (noteFilterGuid h)) st st1 0 total hwf hrun
        exact ⟨hwf1, hsub1, hfind1, htrans1, fun _ => hsync1⟩
  · unfold sync_notes_in_notebook at hok
    have hen' : h.row.sync_enabled = false := by
      cases hval : h.row.sync_enabled
      · rfl
      · exact absurd hval hen
    rw [hen'] at hok
    dsimp only at hok
    injection hok with h1 h2
    subst h1
    refine ⟨hwf, fun a ha => ha, ?_, fun g u' hs => hs, fun hcontra => absurd hcontra hen⟩
    intro g r hf
    exact ⟨r, hf, rfl, rfl⟩

/-! ### C1 -/

/-- C1: if two distinct users u1 ≠ u2 each successfully run the note sync
over a (sync-enabled) notebook whose remote listing contains a note with
GUID g — sequentially, in either order, since the roles of the two passes
here are arbitrary — then afterwards exactly one `Note` row carries g, and
`NoteAccess` rows exist for that row for both users. -/
theorem two_user_sync_dedups_note (ctx : TextCtx) (d1 d2 : NoteStore) (u1 u2 : Nat)
    (h1 h2 : NotebookHandle) (t1 t2 : Nat) (st0 st1 st2 : DB) (k1 k2 : Nat)
    (g : String) (m1 m2 : NoteMeta)
    (hwf : WFNotes st0) (hne : u1 ≠ u2)
    (hen1 : h1.row.sync_enabled = true) (hen2 : h2.row.sync_enabled = true)
    (hm1 : m1 ∈ (noteStoreFor d1 h1).listing (noteFilterGuid h1)) (hg1 : m1.guid = g)
    (hm2 : m2 ∈ (noteStoreFor d2 h2).listing (noteFilterGuid h2)) (hg2 : m2.guid = g)
    (hp1 : sync_notes_in_notebook ctx d1 u1 h1 t1 st0 = (st1, Except.ok k1))
    (hp2 : sync_notes_in_notebook ctx d2 u2 h2 t2 st1 = (st2, Except.ok k2)) :
    countGuid st2 g = 1 ∧
    ∃ r, r ∈ st2.notes ∧ r.evernote_guid = g ∧
      hasAccess st2 r.id u1 = true ∧ hasAccess st2 r.id u2 = true := by
  obtain ⟨hwf1, hsub1, hfind1, htrans1, hsync1⟩ :=
    sync_notes_ok_invariant ctx d1 u1 h1 t1 st0 st1 k1 hwf hp1
  obtain ⟨hwf2, hsub2, hfind2, htrans2, hsync2⟩ :=
    sync_notes_ok_invariant ctx d2 u2 h2 t2 st1 st2 k2 hwf1 hp2
  have hs1 : SyncedNote ctx (noteStoreFor d1 h1) u1 st1 g := by
    have hsg := hsync1 hen1 m1 hm1
    rw [hg1] at hsg
    exact hsg
  obtain ⟨r1, n1, hf1, hn1, hh1, hacc1⟩ := hs1
  have hs2 : SyncedNote ctx (noteStoreFor d2 h2) u2 st2 g := by
    have hsg := hsync2 hen2 m2 hm2
    rw [hg2] at hsg
    exact hsg
  obtain ⟨r2, n2, hf2, hn2, hh2, hacc2⟩ := hs2
  obtain ⟨r2', hf2', hid2', hg2'⟩ := hfind2 g r1 hf1
  have hr2eq : r2' = r2 := Option.some.inj (hf2'.symm.trans hf2)
  have hidr : r2.id = r1.id := by rw [← hr2eq]; exact hid2'
  refine ⟨le_antisymm (countGuid_le_one hwf2 g) (countGuid_pos hf2),
    r2, findByGuid_mem hf2, findByGuid_guid hf2, ?_, hacc2⟩
  rw [hidr]
  exact any_mono_of_subset hsub2 hacc1

/-- Notebook row for the second user of the C1 witness scenario. -/
def c1Row2 : NotebookRow := { enabledNbRow with id := 4, user_id := 2 }

/-- State after user 1 syncs the one-note notebook served by `wStore` from
an empty database. -/
def c1St1 : DB :=
  { emptyDB with
    notes := [{ id := 1, evernote_guid := "note-guid", notebook_id := some 3,
                source_user_id := 1, title := "T", plain_text := "body",
                enml_content := some "body", content_hash := "body", content_length := 4,
                source_url := none, author := none, en_created := none, en_updated := none,
                created_at := 7, updated_at := 7 }]
    noteAccess := [{ note_id := 1, user_id := 1, access_type := "SYNC", synced_at := 7 }]
    nextNoteId := 2 }

/-- State after user 2 then syncs a notebook pointing at the same remote
note: only a second access row appears. -/
def c1St2 : DB :=
  { c1St1 with
    noteAccess := c1St1.noteAccess ++
      [{ note_id := 1, user_id := 2, access_type := "SYNC", synced_at := 8 }] }

theorem two_user_sync_dedups_note_witness :
    countGuid c1St2 "note-guid" = 1 ∧
    ∃ r, r ∈ c1St2.notes ∧ r.evernote_guid = "note-guid" ∧
      hasAccess c1St2 r.id 1 = true ∧ hasAccess c1St2 r.id 2 = true :=
  two_user_sync_dedups_note idCtx wStore wStore 1 2 ⟨enabledNbRow, none⟩ ⟨c1Row2, none⟩
    7 8 emptyDB c1St1 c1St2 1 0 "note-guid" ⟨"note-guid"⟩ ⟨"note-guid"⟩
    (by decide) (by decide) rfl rfl (by decide) rfl (by decide) rfl
    (by rw [sync_notes_in_notebook_enabled idCtx wStore 1 ⟨enabledNbRow, none⟩ 7 emptyDB rfl]
        rfl)
    (by rw [sync_notes_in_notebook_enabled idCtx wStore 2 ⟨c1Row2, none⟩ 8 c1St1 rfl]
        rfl)

/-! ### C4 -/

/-- C4: the access grant is idempotent — the first call for a (note, user)
pair appends exactly one row with access type SYNC, a call when the pair
exists is a no-op, and re-running the grant is absorbed — and consequently a
second notebook sync against an unchanged remote reports zero content
updates and creates zero new `NoteAccess` rows (and no note change at
all). -/
theorem ensure_access_idempotent_and_resync_clean (ctx : TextCtx) (d : NoteStore)
    (uid : Nat) (h : NotebookHandle) (t1 t2 : Nat) (st0 st1 : DB) (k : Nat)
    (hwf : WFNotes st0)
    (hp1 : sync_notes_in_notebook ctx d uid h t1 st0 = (st1, Except.ok k)) :
    (∀ (st : DB) (nid u tA : Nat),
      (hasAccess st nid u = false →
        _ensure_note_access st nid u tA =
          { st with noteAccess := st.noteAccess ++
              [{ note_id := nid, user_id := u, access_type := "SYNC", synced_at := tA }] }) ∧
      (hasAccess st nid u = true → _ensure_note_access st nid u tA = st) ∧
      (∀ tB, _ensure_note_access (_ensure_note_access st nid u tA) nid u tB =
        _ensure_note_access st nid u tA)) ∧
    (sync_notes_in_notebook ctx d uid h t2 st1).2 = Except.ok 0 ∧
    (sync_notes_in_notebook ctx d uid h t2 st1).1.notes = st1.notes ∧
    (sync_notes_in_notebook ctx d uid h t2 st1).1.noteAccess = st1.noteAccess := by
  constructor
  · intro st nid u tA
    refine ⟨?_, ?_, ?_⟩
    · intro hf
      unfold _ensure_note_access ensureList
      rw [if_neg]
      show ¬(st.noteAccess.any (fun a => a.note_id == nid && a.user_id == u) = true)
      rw [show st.noteAccess.any (fun a => a.note_id == nid && a.user_id == u) = false from hf]
      simp
    · exact fun ht => ensure_note_access_noop st nid u tA ht
    · intro tB
      by_cases hacc : hasAccess st nid u = true
      · rw [ensure_note_access_noop st nid u tA hacc, ensure_note_access_noop st nid u tB hacc]
      · exact ensure_note_access_noop _ nid u tB (ensure_note_access_grants st nid u tA)
  · by_cases hen : h.row.sync_enabled = true
    · obtain ⟨hwf1, hsub1, hfind1, htrans1, hsync1⟩ :=
        sync_notes_ok_invariant ctx d uid h t1 st0 st1 k hwf hp1
      rw [sync_notes_in_notebook_enabled ctx d uid h t2 st1 hen]
      rw [syncMetas_all_synced ctx (noteStoreFor d h) uid h.row.id t2
        ((noteStoreFor d h).listing (noteFilterGuid h)) st1 0 (hsync1 hen)]
      exact ⟨rfl, rfl, rfl⟩
    · have hen' : h.row.sync_enabled = false := by
        cases hval : h.row.sync_enabled
        · rfl
        · exact absurd hval hen
      unfold sync_notes_in_notebook
      rw [hen']
      exact ⟨rfl, rfl, rfl⟩

theorem ensure_access_idempotent_and_resync_clean_witness :
    _ensure_note_access wNoteDB 1 2 9 =
      { wNoteDB with noteAccess := wNoteDB.noteAccess ++
          [{ note_id := 1, user_id := 2, access_type := "SYNC", synced_at := 9 }] } ∧
    _ensure_note_access wNoteDB 1 1 9 = wNoteDB ∧
    (sync_notes_in_notebook idCtx wStore 1 ⟨enabledNbRow, none⟩ 8 c1St1).2 = Except.ok 0 ∧
    (sync_notes_in_notebook idCtx wStore 1 ⟨enabledNbRow, none⟩ 8 c1St1).1.notes = c1St1.notes ∧
    (sync_notes_in_notebook idCtx wStore 1 ⟨enabledNbRow, none⟩ 8 c1St1).1.noteAccess =
      c1St1.noteAccess := by
  have H := ensure_access_idempotent_and_resync_clean idCtx wStore 1 ⟨enabledNbRow, none⟩
    7 8 emptyDB c1St1 1 (by decide)
    (by rw [sync_notes_in_notebook_enabled idCtx wStore 1 ⟨enabledNbRow, none⟩ 7 emptyDB rfl]
        rfl)
  exact ⟨(H.1 wNoteDB 1 2 9).1 (by decide), (H.1 wNoteDB 1 1 9).2.1 (by decide),
         H.2.1, H.2.2.1, H.2.2.2⟩

/-! ### The notebook/note phase never touches the sync_log table -/

theorem sync_single_syncLogs (ctx : TextCtx) (s : NoteStore) (uid nbid now : Nat)
    (st : DB) (m : NoteMeta) :
    (_sync_single_note ctx s uid nbid now st m).1.syncLogs = st.syncLogs := by
  cases hfind : findByGuid st m.guid with
  | some ex =>
    cases hget : s.getNote m.guid with
    | error e =>
      rw [sync_single_found_fetch_error ctx s uid nbid now st m ex e hfind hget]
      rfl
    | ok n =>
      by_cases hh : ex.content_hash = ctx.md5Hex (pyOrStr n.content "")
      · rw [sync_single_found_same ctx s uid nbid now st m ex n hfind hget hh]
        rfl
      · rw [sync_single_found_diff ctx s uid nbid now st m ex n hfind hget hh]
        obtain ⟨tg, ntg, k, hshape⟩ := sync_note_tags_shape s
          { st with
            noteAccess := ensureList st.noteAccess ex.id uid now
            notes := st.notes.map
              (fun r => if r.id = ex.id then updatedNoteRow ctx now ex n else r) }
          ex.id n.tagGuids
        dsimp only
        rw [hshape]
  | none =>
    cases hget : s.getNote m.guid with
    | error e =>
      rw [sync_single_new_fetch_error ctx s uid nbid now st m e hfind hget]
    | ok n =>
      rw [sync_single_new ctx s uid nbid now st m n hfind hget]
      obtain ⟨tg, ntg, k, hshape⟩ := sync_note_tags_shape s
        (_ensure_note_access
          { st with
            notes := st.notes ++ [newNoteRow ctx uid nbid st.nextNoteId now m.guid n]
            nextNoteId := st.nextNoteId + 1 }
          st.nextNoteId uid now)
        st.nextNoteId n.tagGuids
      dsimp only
      rw [hshape]
      rfl

theorem syncMetas_syncLogs (ctx : TextCtx) (s : NoteStore) (uid nbid now : Nat) :
    ∀ (metas : List NoteMeta) (st : DB) (acc : Nat),
      (syncMetas ctx s uid nbid now st metas acc).1.syncLogs = st.syncLogs := by
  intro metas
  induction metas with
  | nil => intro st acc; rfl
  | cons m rest ih =>
    intro st acc
    have hL : syncMetas ctx s uid nbid now st (m :: rest) acc =
        (match _sync_single_note ctx s uid nbid now st m with
         | (st1, Except.error e) => (st1, Except.error e)
         | (st1, Except.ok b) =>
           syncMetas ctx s uid nbid now st1 rest (if b then acc + 1 else acc)) := rfl
    rw [hL]
    have h1 := sync_single_syncLogs ctx s uid nbid now st m
    cases hstep : _sync_single_note ctx s uid nbid now st m with
    | mk st1 r =>
      rw [hstep] at h1
      cases r with
      | error e => exact h1
      | ok b => exact (ih st1 (if b then acc + 1 else acc)).trans h1

theorem sync_notes_syncLogs (ctx : TextCtx) (d : NoteStore) (uid : Nat)
    (h : NotebookHandle) (now : Nat) (st : DB) :
    (sync_notes_in_notebook ctx d uid h now st).1.syncLogs = st.syncLogs := by
  by_cases hen : h.row.sync_enabled = true
  · rw [sync_notes_in_notebook_enabled ctx d uid h now st hen]
    have h1 := syncMetas_syncLogs ctx (noteStoreFor d h) uid h.row.id now
      ((noteStoreFor d h).listing (noteFilterGuid h)) st 0
    cases hrun : syncMetas ctx (noteStoreFor d h) uid h.row.id now st
        ((noteStoreFor d h).listing (noteFilterGuid h)) 0 with
    | mk st1 r =>
      rw [hrun] at h1
      cases r with
      | error e => exact h1
      | ok total => exact h1
  · have hen' : h.row.sync_enabled = false := by
      cases hval : h.row.sync_enabled
      · rfl
      · exact absurd hval hen
    unfold sync_notes_in_notebook
    rw [hen']
    rfl

theorem syncAll_syncLogs (ctx : TextCtx) (d : NoteStore) (uid now : Nat) :
    ∀ (hs : List NotebookHandle) (st : DB) (acc : Nat),
      (syncAllNotebooks ctx d uid hs now st acc).1.syncLogs = st.syncLogs := by
  intro hs
  induction hs with
  | nil => intro st acc; rfl
  | cons h rest ih =>
    intro st acc
    unfold syncAllNotebooks
    have h1 := sync_notes_syncLogs ctx d uid h now st
    cases hsn : sync_notes_in_notebook ctx d uid h now st with
    | mk st1 r =>
      rw [hsn] at h1
      cases r with
      | error e => exact h1
      | ok c => exact (ih st1 (acc + c)).trans h1

theorem upsertOwn_syncLogs (st : DB) (userId : Nat) (nb : RemoteNotebook) (now : Nat) :
    (notebookUpsertOwn st userId nb now).1.syncLogs = st.syncLogs := by
  unfold notebookUpsertOwn
  cases hf : st.notebooks.find? (fun r => r.user_id == userId && r.notebook_guid == nb.guid) with
  | some row => rfl
  | none => rfl

theorem upsertLinked_syncLogs (st : DB) (userId : Nat) (lnb : RemoteLinkedNotebook)
    (snb : SharedNotebook) (now : Nat) :
    (notebookUpsertLinked st userId lnb snb now).1.syncLogs = st.syncLogs := by
  unfold notebookUpsertLinked
  cases hf : st.notebooks.find?
      (fun r => r.user_id == userId && r.notebook_guid == snb.notebookGuid) with
  | some row => rfl
  | none => rfl

theorem foldOwn_syncLogs (user : UserRow) (now : Nat) :
    ∀ (l : List RemoteNotebook) (st : DB) (hs : List NotebookHandle),
      (l.foldl (fun acc nb =>
        let res := notebookUpsertOwn acc.1 user.id nb now
        (res.1, acc.2 ++ [{ row := res.2, sharedStore := none }])) (st, hs)).1.syncLogs =
      st.syncLogs := by
  intro l
  induction l with
  | nil => intro st hs; rfl
  | cons nb rest ih =>
    intro st hs
    rw [List.foldl_cons]
    exact (ih (notebookUpsertOwn st user.id nb now).1 _).trans
      (upsertOwn_syncLogs st user.id nb now)

theorem foldLinked_syncLogs (user : UserRow) (now : Nat) :
    ∀ (l : List LinkedEntry) (st : DB) (hs : List NotebookHandle),
      (l.foldl (fun acc e =>
        let res := notebookUpsertLinked acc.1 user.id e.lnb e.shared now
        (res.1, acc.2 ++ [{ row := res.2, sharedStore := some (e.store, e.shared.notebookGuid) }]))
        (st, hs)).1.syncLogs = st.syncLogs := by
  intro l
  induction l with
  | nil => intro st hs; rfl
  | cons e rest ih =>
    intro st hs
    rw [List.foldl_cons]
    exact (ih (notebookUpsertLinked st user.id e.lnb e.shared now).1 _).trans
      (upsertLinked_syncLogs st user.id e.lnb e.shared now)

theorem sync_own_notebooks_syncLogs (env : EvernoteEnv) (user : UserRow) (now : Nat)
    (st : DB) : (sync_own_notebooks env user now st).1.syncLogs = st.syncLogs :=
  foldOwn_syncLogs user now env.ownNotebooks st []

theorem sync_linked_notebooks_syncLogs (env : EvernoteEnv) (user : UserRow) (now : Nat)
    (st : DB) : (sync_linked_notebooks env user now st).1.syncLogs = st.syncLogs :=
  foldLinked_syncLogs user now env.linked st []

theorem body_syncLogs (ctx : TextCtx) (env : EvernoteEnv) (user : UserRow) (now : Nat)
    (st : DB) : (evernoteSyncBody ctx env user now st).1.syncLogs = st.syncLogs := by
  unfold evernoteSyncBody
  dsimp only
  have h1 := sync_own_notebooks_syncLogs env user now st
  have h2 := sync_linked_notebooks_syncLogs env user now (sync_own_notebooks env user now st).1
  have h3 := syncAll_syncLogs ctx env.store user.id now
    ((sync_own_notebooks env user now st).2 ++
      (sync_linked_notebooks env user now (sync_own_notebooks env user now st).1).2)
    (sync_linked_notebooks env user now (sync_own_notebooks env user now st).1).1 0
  cases hall : syncAllNotebooks ctx env.store user.id
      ((sync_own_notebooks env user now st).2 ++
        (sync_linked_notebooks env user now (sync_own_notebooks env user now st).1).2)
      now (sync_linked_notebooks env user now (sync_own_notebooks env user now st).1).1 0 with
  | mk st3 r =>
    rw [hall] at h3
    cases r with
    | error e => exact h3.trans (h2.trans h1)
    | ok total => exact h3.trans (h2.trans h1)

/-! ### Locating the pass's log row after its terminal update -/

theorem find_updated_log (logs : List SyncLogRow) (log : SyncLogRow) (logId : Nat)
    (upd : SyncLogRow → SyncLogRow)
    (hnew : log.id = logId) (hupd : (upd log).id = logId)
    (hold : ∀ l ∈ logs, ¬l.id = logId) :
    ((logs ++ [log]).map (fun l => if l.id = logId then upd l else l)).find?
      (fun l => l.id == logId) = some (upd log) := by
  induction logs with
  | nil =>
    simp only [List.nil_append, List.map_cons, List.map_nil]
    rw [if_pos hnew]
    rw [find?_cons_eq (fun l => l.id == logId) (upd log) []]
    rw [if_pos (by simp [hupd])]
  | cons a t ih =>
    have ha : ¬a.id = logId := hold a (List.mem_cons_self a t)
    simp only [List.cons_append, List.map_cons]
    rw [if_neg ha]
    rw [find?_cons_eq (fun l => l.id == logId) a _]
    rw [if_neg (by simp [ha])]
    exact ih (fun l hl => hold l (List.mem_cons_of_mem a hl))

/-- Error path of the orchestrator, fully characterized: re-raise, terminal
FAILED row carrying the complete raised text and the finish timestamp, and
the exact final log table. -/
theorem full_sync_user_error_spec (ctx : TextCtx) (env : EvernoteEnv) (user : UserRow)
    (now : Nat) (st stb : DB) (e : String)
    (hconn : is_evernote_connected user now = true)
    (hlogs : WFLogs st)
    (hbody : evernoteSyncBody ctx env user now (startedState st user.id now) =
      (stb, Except.error e)) :
    (full_sync_user ctx env user now st).2 = Except.error e ∧
    (full_sync_user ctx env user now st).1.syncLogs =
      (st.syncLogs ++ [startedSyncLog user.id st.nextSyncLogId now]).map
        (fun l => if l.id = st.nextSyncLogId then
          { l with status := "FAILED", error_message := some e, finished_at := some now }
        else l) ∧
    getSyncLog (full_sync_user ctx env user now st).1 st.nextSyncLogId =
      some { startedSyncLog user.id st.nextSyncLogId now with
             status := "FAILED", error_message := some e, finished_at := some now } := by
  have hbl := body_syncLogs ctx env user now (startedState st user.id now)
  rw [hbody] at hbl
  unfold full_sync_user
  rw [hconn]
  dsimp only
  rw [hbody]
  dsimp only
  refine ⟨rfl, ?_, ?_⟩
  · show stb.syncLogs.map _ = _
    rw [hbl]
    rfl
  · show (stb.syncLogs.map
      (fun l => if l.id = st.nextSyncLogId then
        { l with status := "FAILED", error_message := some e, finished_at := some now }
      else l)).find? (fun l => l.id == st.nextSyncLogId) = _
    rw [hbl]
    show ((st.syncLogs ++ [startedSyncLog user.id st.nextSyncLogId now]).map
      (fun l => if l.id = st.nextSyncLogId then
        { l with status := "FAILED", error_message := some e, finished_at := some now }
      else l)).find? (fun l => l.id == st.nextSyncLogId) = _
    exact find_updated_log st.syncLogs (startedSyncLog user.id st.nextSyncLogId now)
      st.nextSyncLogId
      (fun l => { l with status := "FAILED", error_message := some e, finished_at := some now })
      rfl rfl (fun l hl => by have := hlogs l hl; omega)

/-! ### C5 (corrected: the error text is persisted in full, not truncated) -/

theorem syncAll_cons_error (ctx : TextCtx) (d : NoteStore) (uid : Nat)
    (h : NotebookHandle) (rest : List NotebookHandle) (now : Nat) (st st1 : DB)
    (acc : Nat) (e : String)
    (hf : sync_notes_in_notebook ctx d uid h now st = (st1, Except.error e)) :
    syncAllNotebooks ctx d uid (h :: rest) now st acc = (st1, Except.error e) := by
  unfold syncAllNotebooks
  rw [hf]

/-- A connected user (valid token, future expiry). -/
def okUser : UserRow :=
  { id := 1, name := "alice", evernote_token := some "tok",
    token_expires_at := some 100, last_sync_at := none }

/-- A remote account with one own notebook of one note whose content fetch
always raises `msg`. -/
def failEnv (msg : String) : EvernoteEnv :=
  { store := { listing := fun _ => [⟨"n1"⟩]
               getNote := fun _ => Except.error msg
               getTag := fun _ => Except.error msg }
    ownNotebooks := [{ guid := "g1", name := "NB", stack := none, updateSequenceNum := none }]
    linked := [] }

/-- The notebook row reconciled for `failEnv`. -/
def c5Row : NotebookRow :=
  { id := 1, user_id := 1, notebook_guid := "g1", name := "NB", stack := none,
    is_shared := false, shared_from := none, shared_notebook_guid := none,
    privilege := "READ", usn := 0, sync_enabled := true, last_sync_at := none,
    created_at := 20, updated_at := 20 }

/-- The session state at the moment the fetch failure propagates out of the
sync body for `failEnv`. -/
def c5Stb : DB :=
  { emptyDB with notebooks := [c5Row], nextNotebookId := 2,
                 syncLogs := [startedSyncLog 1 1 20], nextSyncLogId := 2 }

theorem c5_body_fails (msg : String) :
    evernoteSyncBody idCtx (failEnv msg) okUser 20 (startedState emptyDB okUser.id 20) =
      (c5Stb, Except.error msg) := by
  have hsn : sync_notes_in_notebook idCtx (failEnv msg).store 1 ⟨c5Row, none⟩ 20 c5Stb =
      (c5Stb, Except.error msg) :=
    sync_notes_first_note_error idCtx (failEnv msg).store 1 ⟨c5Row, none⟩ 20 c5Stb c5Stb
      ⟨"n1"⟩ [] msg rfl rfl rfl
  have hown : sync_own_notebooks (failEnv msg) okUser 20 (startedState emptyDB okUser.id 20) =
      (c5Stb, [⟨c5Row, none⟩]) := rfl
  have hlkd : sync_linked_notebooks (failEnv msg) okUser 20 c5Stb = (c5Stb, []) := rfl
  unfold evernoteSyncBody
  dsimp only
  rw [hown, hlkd]
  dsimp only
  rw [show ([(⟨c5Row, none⟩ : NotebookHandle)] ++ ([] : List NotebookHandle)) =
    ((⟨c5Row, none⟩ : NotebookHandle) :: []) from rfl]
  rw [syncAll_cons_error idCtx (failEnv msg).store okUser.id ⟨c5Row, none⟩ [] 20
    c5Stb c5Stb 0 msg hsn]

/-- C5 counterexample: "persists the error text truncated to a bounded
length" is false — there is no bound on the length of the error text the
FAILED log row stores, because the code assigns `str(e)` verbatim to the
unbounded `error_message` column; for any proposed bound B, an exception
message of length B+1 is persisted in full. -/
theorem failed_log_error_text_unbounded_cex :
    ¬∃ B : Nat, ∀ (msg : String),
      ∀ l ∈ (full_sync_user idCtx (failEnv msg) okUser 20 emptyDB).1.syncLogs,
        (l.error_message.getD "").length ≤ B := by
  rintro ⟨B, hB⟩
  have hspec := full_sync_user_error_spec idCtx
    (failEnv (String.mk (List.replicate (B + 1) 'a'))) okUser 20 emptyDB c5Stb
    (String.mk (List.replicate (B + 1) 'a')) rfl (by decide) (c5_body_fails _)
  have hmem : ({ startedSyncLog okUser.id emptyDB.nextSyncLogId 20 with
      status := "FAILED",
      error_message := some (String.mk (List.replicate (B + 1) 'a')),
      finished_at := some 20 } : SyncLogRow) ∈
      (full_sync_user idCtx (failEnv (String.mk (List.replicate (B + 1) 'a')))
        okUser 20 emptyDB).1.syncLogs := by
    rw [hspec.2.1]
    exact List.mem_singleton_self _
  have hle := hB (String.mk (List.replicate (B + 1) 'a')) _ hmem
  have hle2 : (String.mk (List.replicate (B + 1) 'a')).length ≤ B := hle
  have hlen : (String.mk (List.replicate (B + 1) 'a')).length = B + 1 := by
    show (List.replicate (B + 1) 'a').length = B + 1
    simp
  omega

/-- C5 (amended): for every unhandled exception `e` raised during the
notebook/note phases, the orchestrator re-raises `e` to the caller and sets
the pass's `SyncLog` row to the terminal FAILED status, persisting the
complete (untruncated) error text together with the finish timestamp. -/
theorem unhandled_error_marks_log_failed_and_reraises (ctx : TextCtx)
    (env : EvernoteEnv) (user : UserRow) (now : Nat) (st stb : DB) (e : String)
    (hconn : is_evernote_connected user now = true)
    (hlogs : WFLogs st)
    (hbody : evernoteSyncBody ctx env user now (startedState st user.id now) =
      (stb, Except.error e)) :
    (full_sync_user ctx env user now st).2 = Except.error e ∧
    getSyncLog (full_sync_user ctx env user now st).1 st.nextSyncLogId =
      some { startedSyncLog user.id st.nextSyncLogId now with
             status := "FAILED", error_message := some e, finished_at := some now } :=
  ⟨(full_sync_user_error_spec ctx env user now st stb e hconn hlogs hbody).1,
   (full_sync_user_error_spec ctx env user now st stb e hconn hlogs hbody).2.2⟩

theorem unhandled_error_marks_log_failed_and_reraises_witness :
    (full_sync_user idCtx (failEnv "boom") okUser 20 emptyDB).2 = Except.error "boom" ∧
    getSyncLog (full_sync_user idCtx (failEnv "boom") okUser 20 emptyDB).1
      emptyDB.nextSyncLogId =
      some { startedSyncLog okUser.id emptyDB.nextSyncLogId 20 with
             status := "FAILED", error_message := some "boom", finished_at := some 20 } :=
  unhandled_error_marks_log_failed_and_reraises idCtx (failEnv "boom") okUser 20 emptyDB
    c5Stb "boom" rfl (by decide) (c5_body_fails "boom")

/-! ### C10 -/

theorem syncAll_eq_counts_sum (ctx : TextCtx) (d : NoteStore) (uid now : Nat) :
    ∀ (hs : List NotebookHandle) (st st' : DB) (acc t : Nat),
      syncAllNotebooks ctx d uid hs now st acc = (st', Except.ok t) →
      t = acc + (notebookNoteCounts ctx d uid hs now st).sum := by
  intro hs
  induction hs with
  | nil =>
    intro st st' acc t hrun
    injection hrun with h1 h2
    rw [← Except.ok.inj h2]
    simp [notebookNoteCounts]
  | cons h rest ih =>
    intro st st' acc t hrun
    unfold syncAllNotebooks at hrun
    unfold notebookNoteCounts
    cases hsn : sync_notes_in_notebook ctx d uid h now st with
    | mk st1 r =>
      rw [hsn] at hrun
      cases r with
      | error e => exact absurd (congrArg Prod.snd hrun) (by simp)
      | ok c =>
        dsimp only at hrun ⊢
        have hrec := ih st1 st' (acc + c) t hrun
        rw [hrec, List.sum_cons]
        omega

/-- C10: on a successful pass, the returned summary satisfies: total
notebook count = own + shared, own/shared counts are the lengths of the two
reconciled notebook lists, the note count is the sum of the per-notebook
synced-note counts, and the SUCCESS `SyncLog` row persists exactly the
summary's counts together with the finish timestamp. -/
theorem success_summary_counts_consistent (ctx : TextCtx) (env : EvernoteEnv)
    (user : UserRow) (now : Nat) (st st' : DB) (sm : SyncSummary)
    (hlogs : WFLogs st)
    (hrun : full_sync_user ctx env user now st = (st', Except.ok sm)) :
    sm.notebooks = sm.own + sm.shared ∧
    sm.own = (sync_own_notebooks env user now (startedState st user.id now)).2.length ∧
    sm.shared = (sync_linked_notebooks env user now
      (sync_own_notebooks env user now (startedState st user.id now)).1).2.length ∧
    sm.notes = (notebookNoteCounts ctx env.store user.id
      ((sync_own_notebooks env user now (startedState st user.id now)).2 ++
        (sync_linked_notebooks env user now
          (sync_own_notebooks env user now (startedState st user.id now)).1).2)
      now
      (sync_linked_notebooks env user now
        (sync_own_notebooks env user now (startedState st user.id now)).1).1).sum ∧
    getSyncLog st' st.nextSyncLogId =
      some { startedSyncLog user.id st.nextSyncLogId now with
             status := "SUCCESS", notebooks_synced := sm.notebooks,
             notes_synced := sm.notes, finished_at := some now } := by
  by_cases hconn : is_evernote_connected user now = true
  · unfold full_sync_user at hrun
    rw [hconn] at hrun
    dsimp only at hrun
    cases hbody : evernoteSyncBody ctx env user now (startedState st user.id now) with
    | mk stb r =>
      rw [hbody] at hrun
      cases r with
      | error e => exact absurd (congrArg Prod.snd hrun) (by simp)
      | ok trip =>
        rcases trip with ⟨ownN, sharedN, total⟩
        dsimp only at hrun
        injection hrun with h1 h2
        subst h1
        have hsm :
            sm = { notebooks := ownN + sharedN, own := ownN, shared := sharedN, notes := total } :=
          (Except.ok.inj h2).symm
        subst hsm
        unfold evernoteSyncBody at hbody
        dsimp only at hbody
        cases hall : syncAllNotebooks ctx env.store user.id
            ((sync_own_notebooks env user now (startedState st user.id now)).2 ++
              (sync_linked_notebooks env user now
                (sync_own_notebooks env user now (startedState st user.id now)).1).2)
            now
            (sync_linked_notebooks env user now
              (sync_own_notebooks env user now (startedState st user.id now)).1).1 0 with
        | mk st3 r3 =>
          rw [hall] at hbody
          cases r3 with
          | error e => exact absurd (congrArg Prod.snd hbody) (by simp)
          | ok tt =>
            dsimp only at hbody
            injection hbody with hb1 hb2
            have htrip := Except.ok.inj hb2
            have e1 := congrArg (fun p => p.1) htrip
            have e2 := congrArg (fun p => p.2.1) htrip
            have e3 := congrArg (fun p => p.2.2) htrip
            dsimp only at e1 e2 e3
            have hsum := syncAll_eq_counts_sum ctx env.store user.id now _ _ _ 0 tt hall
            have hstb : stb.syncLogs =
                st.syncLogs ++ [startedSyncLog user.id st.nextSyncLogId now] := by
              rw [← hb1]
              have hA := syncAll_syncLogs ctx env.store user.id now
                ((sync_own_notebooks env user now (startedState st user.id now)).2 ++
                  (sync_linked_notebooks env user now
                    (sync_own_notebooks env user now (startedState st user.id now)).1).2)
                (sync_linked_notebooks env user now
                  (sync_own_notebooks env user now (startedState st user.id now)).1).1 0
              rw [hall] at hA
              rw [hA, sync_linked_notebooks_syncLogs, sync_own_notebooks_syncLogs]
              rfl
            refine ⟨rfl, e1.symm, e2.symm, ?_, ?_⟩
            · show total = _
              rw [← e3, hsum]
              simp
            · show (stb.syncLogs.map
                (fun l => if l.id = st.nextSyncLogId then
                  { l with
                    status := "SUCCESS"
                    notebooks_synced := ownN + sharedN
                    notes_synced := total
                    finished_at := some now }
                else l)).find? (fun l => l.id == st.nextSyncLogId) = _
              rw [hstb]
              exact find_updated_log st.syncLogs
                (startedSyncLog user.id st.nextSyncLogId now) st.nextSyncLogId
                (fun l =>
                  { l with
                    status := "SUCCESS"
                    notebooks_synced := ownN + sharedN
                    notes_synced := total
                    finished_at := some now })
                rfl rfl (fun l hl => by have := hlogs l hl; omega)
  · have hcf : is_evernote_connected user now = false := by
      cases hval : is_evernote_connected user now
      · rfl
      · exact absurd hval hconn
    unfold full_sync_user at hrun
    rw [hcf] at hrun
    exact absurd (congrArg Prod.snd hrun) (by simp)

/-- A remote account with one own notebook containing one note, served by
`wStore`. -/
def okEnv : EvernoteEnv :=
  { store := wStore
    ownNotebooks := [{ guid := "nb-guid", name := "Research", stack := none,
                       updateSequenceNum := some 3 }]
    linked := [] }

/-- The notebook row reconciled for `okEnv`, before its `last_sync_at`
stamp. -/
def c10PreRow : NotebookRow :=
  { id := 1, user_id := 1, notebook_guid := "nb-guid", name := "Research", stack := none,
    is_shared := false, shared_from := none, shared_notebook_guid := none,
    privilege := "READ", usn := 3, sync_enabled := true, last_sync_at := none,
    created_at := 20, updated_at := 20 }

/-- State after the notebook phase of the `okEnv` pass. -/
def c10St1 : DB :=
  { emptyDB with syncLogs := [startedSyncLog 1 1 20], nextSyncLogId := 2,
                 notebooks := [c10PreRow], nextNotebookId := 2 }

/-- The note row stored by the `okEnv` pass. -/
def c10Note : NoteRow :=
  { id := 1, evernote_guid := "note-guid", notebook_id := some 1, source_user_id := 1,
    title := "T", plain_text := "body", enml_content := some "body",
    content_hash := "body", content_length := 4, source_url := none, author := none,
    en_created := none, en_updated := none, created_at := 20, updated_at := 20 }

/-- State after the note phase of the `okEnv` pass. -/
def c10St2 : DB :=
  { c10St1 with notebooks := [{ c10PreRow with last_sync_at := some 20 }],
                notes := [c10Note], nextNoteId := 2,
                noteAccess := [{ note_id := 1, user_id := 1, access_type := "SYNC",
                                 synced_at := 20 }] }

/-- Final state of the successful `okEnv` pass. -/
def c10Final : DB :=
  { c10St2 with syncLogs := [{ startedSyncLog 1 1 20 with
      status := "SUCCESS"
      notebooks_synced := 1
      notes_synced := 1
      finished_at := some 20 }] }

theorem c10_run_succeeds :
    full_sync_user idCtx okEnv okUser 20 emptyDB =
      (c10Final, Except.ok { notebooks := 1, own := 1, shared := 0, notes := 1 }) := by
  have hsn : sync_notes_in_notebook idCtx okEnv.store okUser.id ⟨c10PreRow, none⟩ 20 c10St1 =
      (c10St2, Except.ok 1) := by
    rw [sync_notes_in_notebook_enabled idCtx okEnv.store okUser.id ⟨c10PreRow, none⟩ 20
      c10St1 rfl]
    rfl
  have hbody : evernoteSyncBody idCtx okEnv okUser 20 (startedState emptyDB okUser.id 20) =
      (c10St2, Except.ok (1, 0, 1)) := by
    have hown : sync_own_notebooks okEnv okUser 20 (startedState emptyDB okUser.id 20) =
        (c10St1, [⟨c10PreRow, none⟩]) := rfl
    have hlkd : sync_linked_notebooks okEnv okUser 20 c10St1 = (c10St1, []) := rfl
    unfold evernoteSyncBody
    dsimp only
    rw [hown, hlkd]
    dsimp only
    rw [show ([(⟨c10PreRow, none⟩ : NotebookHandle)] ++ ([] : List NotebookHandle)) =
      ((⟨c10PreRow, none⟩ : NotebookHandle) :: []) from rfl]
    unfold syncAllNotebooks
    rw [hsn]
    rfl
  unfold full_sync_user
  rw [if_neg (by decide : ¬((!is_evernote_connected okUser 20) = true))]
  dsimp only
  rw [hbody]
  rfl

theorem success_summary_counts_consistent_witness :
    (1 : Nat) = 1 + 0 ∧
    (1 : Nat) = (sync_own_notebooks okEnv okUser 20
      (startedState emptyDB okUser.id 20)).2.length ∧
    (0 : Nat) = (sync_linked_notebooks okEnv okUser 20
      (sync_own_notebooks okEnv okUser 20 (startedState emptyDB okUser.id 20)).1).2.length ∧
    (1 : Nat) = (notebookNoteCounts idCtx okEnv.store okUser.id
      ((sync_own_notebooks okEnv okUser 20 (startedState emptyDB okUser.id 20)).2 ++
        (sync_linked_notebooks okEnv okUser 20
          (sync_own_notebooks okEnv okUser 20 (startedState emptyDB okUser.id 20)).1).2)
      20
      (sync_linked_notebooks okEnv okUser 20
        (sync_own_notebooks okEnv okUser 20 (startedState emptyDB okUser.id 20)).1).1).sum ∧
    getSyncLog c10Final emptyDB.nextSyncLogId =
      some { startedSyncLog okUser.id emptyDB.nextSyncLogId 20 with
             status := "SUCCESS", notebooks_synced := 1, notes_synced := 1,
             finished_at := some 20 } :=
  success_summary_counts_consistent idCtx okEnv okUser 20 emptyDB c10Final
    { notebooks := 1, own := 1, shared := 0, notes := 1 } (by decide) c10_run_succeeds
